import Mathlib

/-!
Verification of the MND-backend route-search core: the graph model with its
mode-restricted Dijkstra search (src/core/graph.ts), the route planner
(src/core/planner.ts) and the distance-matrix client
(src/infra/distanceMatrixClient.ts), shallowly embedded from the TypeScript
source.  Times are minute counts (`Nat`), tentative Dijkstra distances are
`ℕ∞` (`Infinity` in the source), and the stateful distance-matrix client is
embedded as an explicit state-passing function whose single external call is
an oracle argument.
-/

namespace MND

/-! ## Time helpers (src/core/types.ts) -/

/-- Embeds `TimeOfDay`.  The source stores the two components produced by
`split` on a colon followed by `Number`; on the well-formed HH:MM inputs here
they are naturals. -/
structure TimeOfDay where
  hours : Nat
  minutes : Nat
deriving DecidableEq

/-- Character-level `split` on a separator, matching JS string `split` on a
one-character separator (an empty string splits to a singleton of the empty
string). -/
def splitOnCharAux (c : Char) : List Char → List Char → List (List Char)
  | [], acc => [acc.reverse]
  | x :: xs, acc =>
    if x = c then acc.reverse :: splitOnCharAux c xs []
    else splitOnCharAux c xs (x :: acc)

def splitOnChar (c : Char) (s : String) : List String :=
  (splitOnCharAux c s.toList []).map (fun l => String.mk l)

/-- JS `Number` on a split component, restricted to the unsigned decimal
strings that occur in HH:MM times: the number of an empty component is 0, a
digit string is its value, anything else is NaN, modelled as `none`. -/
def jsToNat? (s : String) : Option Nat :=
  let l := s.toList
  if l.isEmpty then some 0
  else if l.all Char.isDigit then
    some (l.foldl (fun acc ch => acc * 10 + (ch.toNat - 48)) 0)
  else none

/-- Embeds `parseTime`.  JS `const [hours, minutes] = timeStr.split(':')`
takes the first two components; a missing or non-numeric component (NaN in
JS) is modelled as 0 and never arises on the HH:MM inputs used below. -/
def parseTime (timeStr : String) : TimeOfDay :=
  let parts := splitOnChar (':') timeStr
  ⟨((parts[0]?).bind jsToNat?).getD 0, ((parts[1]?).bind jsToNat?).getD 0⟩

/-- Embeds `timeToMinutes`. -/
def timeToMinutes (time : TimeOfDay) : Nat :=
  time.hours * 60 + time.minutes

/-- JS `padStart` to width 2 with zeros, on the decimal representation. -/
def pad2 (n : Nat) : String :=
  let s := toString n
  if s.length < 2 then ("0") ++ s else s

/-- Embeds `minutesToTime` (`Math.floor` is `Nat` division here). -/
def minutesToTime (minutes : Nat) : String :=
  pad2 (minutes / 60) ++ (":") ++ pad2 (minutes % 60)

/-- Embeds `addMinutes` with its wrap at 24 hours. -/
def addMinutes (timeStr : String) (minutesToAdd : Nat) : String :=
  let time := parseTime timeStr
  minutesToTime ((timeToMinutes time + minutesToAdd) % 1440)

/-! ## Data model (src/core/types.ts) -/

/-- Edge/leg mode `bus`, `local` or `walk` (`local` is a Lean keyword,
hence the trailing underscore). -/
inductive Mode where
  | bus
  | local_
  | walk
deriving DecidableEq

instance : Inhabited Mode := ⟨Mode.bus⟩

/-- Embeds `Node` (the `type` and coordinate fields play no role in the
verified core). -/
structure Node where
  id : String
  name : String
  gmaps_address : String
deriving DecidableEq

/-- Embeds `Edge` (`from` is a Lean keyword, hence `from_`). -/
structure Edge where
  from_ : String
  to_ : String
  mode : Mode
  time_min : Nat
  cost : Nat
  one_way : Bool
deriving DecidableEq

/-- Embeds `EdgeInfo`, the adjacency-list edge descriptor (the unused
`route_ids` field is omitted; no claim mentions it). -/
structure EdgeInfo where
  to_ : String
  mode : Mode
  time_min : Nat
  cost : Nat
deriving DecidableEq

instance : Inhabited EdgeInfo := ⟨⟨("") , Mode.bus, 0, 0⟩⟩

/-- Embeds `Trip`. -/
structure Trip where
  trip_id : String
  stops : List String
  departure_time : String
deriving DecidableEq

/-- Embeds `Route`. -/
structure Route where
  route_id : String
  name : String
  trips : List Trip
deriving DecidableEq

/-- Embeds `PathResult`.  `totalTime` is `ℕ∞`: the source uses `Infinity`
for unreachable targets. -/
structure PathResult where
  found : Bool
  path : List String
  totalTime : ℕ∞
  totalCost : Nat
  edges : List EdgeInfo
deriving DecidableEq

/-! ## Graph (src/core/graph.ts) -/

/-- The loaded graph: `nodes` are the `Map` values in insertion order,
`edges` and `routes` likewise. -/
structure Graph where
  nodes : List Node
  edges : List Edge
  routes : List Route

/-- Node-id key set of the node map, in insertion order. -/
def Graph.nodeIds (g : Graph) : List String :=
  g.nodes.map Node.id

/-- Embeds `hasNode`. -/
def Graph.hasNode (g : Graph) (nodeId : String) : Bool :=
  g.nodeIds.contains nodeId

/-- Embeds `getNode` (first match; ids are unique in a `Map`). -/
def Graph.getNode (g : Graph) (nodeId : String) : Option Node :=
  g.nodes.find? (fun n => n.id == nodeId)

/-- Embeds `getAllRoutes`. -/
def Graph.getAllRoutes (g : Graph) : List Route :=
  g.routes

/-- The forward adjacency entry pushed for an edge. -/
def fwdInfo (e : Edge) : EdgeInfo :=
  ⟨e.to_, e.mode, e.time_min, e.cost⟩

/-- The reverse adjacency entry pushed for a non-one-way edge. -/
def revInfo (e : Edge) : EdgeInfo :=
  ⟨e.from_, e.mode, e.time_min, e.cost⟩

/-- The entries a single edge contributes to node `n`'s adjacency list in
`buildAdjacencyList`: the forward entry when `edge.from === n`, then the
reverse entry when the edge is not one-way and `edge.to_ === n`. -/
def edgeEntries (n : String) (e : Edge) : List EdgeInfo :=
  (if e.from_ = n then [fwdInfo e] else []) ++
    (if e.one_way = false ∧ e.to_ = n then [revInfo e] else [])

/-- Embeds `getNeighbors` over the adjacency list built by
`buildAdjacencyList`: the list is initialised for every node id and filled by
iterating the edge list in order; unknown ids get `[]` (`|| []`). -/
def Graph.neighbors (g : Graph) (nodeId : String) : List EdgeInfo :=
  if g.nodeIds.contains nodeId then
    g.edges.foldr (fun e acc => edgeEntries nodeId e ++ acc) []
  else []

/-- Well-formedness guaranteed by the data set (spec §3 invariants): node ids
are unique and every edge endpoint is a loaded node (otherwise
`buildAdjacencyList` would fault on `adjacencyList[edge.from].push`). -/
def Graph.WF (g : Graph) : Prop :=
  g.nodeIds.Nodup ∧ ∀ e ∈ g.edges, e.from_ ∈ g.nodeIds ∧ e.to_ ∈ g.nodeIds

instance (g : Graph) : Decidable g.WF := by
  unfold Graph.WF
  infer_instance

/-! ## Dijkstra search (`Graph.localShortestPath`, src/core/graph.ts) -/

/-- The mutable maps and the unvisited set of `localShortestPath`.  The maps
are total functions; the source only ever reads them at loaded node ids. -/
structure DijkstraState where
  dist : String → ℕ∞
  cost : String → Nat
  prev : String → Option String
  edgeTo : String → Option EdgeInfo
  unvisited : List String

/-- Pointwise map update (`Map.set`). -/
def upd {α : Type} (f : String → α) (key : String) (val : α) : String → α :=
  fun v => if v = key then val else f v

/-- The linear scan for the unvisited node of minimum tentative distance:
`current = null; minDist = Infinity; unvisited.forEach(...)` with a strict
`<` update, so ties keep the earlier node in insertion order. -/
def findMin (dist : String → ℕ∞) (unvisited : List String) :
    Option String × ℕ∞ :=
  unvisited.foldl
    (fun acc n => if dist n < acc.2 then (some n, dist n) else acc)
    (none, ⊤)

/-- The body of the neighbour loop of the Dijkstra iteration: skip edges
with a disallowed mode or an already-visited endpoint, otherwise relax
distance, cost, predecessor and reaching edge. -/
def relaxStep (allowedModes : List Mode) (current : String)
    (st : DijkstraState) (e : EdgeInfo) : DijkstraState :=
  if ¬ allowedModes.contains e.mode then st
  else if ¬ st.unvisited.contains e.to_ then st
  else if st.dist current + (e.time_min : ℕ∞) < st.dist e.to_ then
    { st with
      dist := upd st.dist e.to_ (st.dist current + (e.time_min : ℕ∞))
      cost := upd st.cost e.to_ (st.cost current + e.cost)
      prev := upd st.prev e.to_ (some current)
      edgeTo := upd st.edgeTo e.to_ (some e) }
  else st

/-- One relaxation pass over `getNeighbors(current)`. -/
def relax (g : Graph) (allowedModes : List Mode) (current : String)
    (st : DijkstraState) : DijkstraState :=
  (g.neighbors current).foldl (relaxStep allowedModes current) st

/-- The `while (unvisited.size > 0)` loop.  Each iteration either breaks or
removes one node, so fuel `|nodes|` suffices; the fuel-exhausted branch is
unreachable when the fuel bounds the unvisited count. -/
def dijkstraLoop (g : Graph) (allowedModes : List Mode) (to_ : String) :
    Nat → DijkstraState → DijkstraState
  | 0, st => st
  | fuel + 1, st =>
    if st.unvisited.isEmpty then st
    else
      match findMin st.dist st.unvisited with
      | (none, _) => st
      | (some current, _) =>
        let st' := { st with unvisited := st.unvisited.erase current }
        if current = to_ then st'
        else dijkstraLoop g allowedModes to_ fuel (relax g allowedModes current st')

/-- The `while (current !== null)` path-reconstruction loop.  A stored
predecessor is followed only when truthy (`previous.get(current) || null`
maps the empty string to `null`, as does the `if (previous.get(current))`
guard on pushing the edge); predecessor pointers are acyclic so fuel
`|nodes| + 1` suffices. -/
def reconstructLoop (prev : String → Option String)
    (edgeTo : String → Option EdgeInfo) :
    Nat → String → List String → List EdgeInfo → List String × List EdgeInfo
  | 0, _, path, edges => (path, edges)
  | fuel + 1, current, path, edges =>
    let path' := current :: path
    match prev current with
    | some p =>
      if p = "" then (path', edges)
      else reconstructLoop prev edgeTo fuel p path' ((edgeTo current).getD default :: edges)
    | none => (path', edges)

/-- Embeds `Graph.localShortestPath` (the caller supplies the
`allowedModes` default — walk and local — explicitly). -/
def Graph.localShortestPath (g : Graph) (from_ to_ : String)
    (allowedModes : List Mode) : PathResult :=
  if ¬ (g.hasNode from_ ∧ g.hasNode to_) then
    ⟨false, [], ⊤, 0, []⟩
  else if from_ = to_ then
    ⟨true, [from_], 0, 0, []⟩
  else
    let st0 : DijkstraState :=
      { dist := fun v => if v = from_ then 0 else ⊤
        cost := fun _ => 0
        prev := fun _ => none
        edgeTo := fun _ => none
        unvisited := g.nodeIds }
    let st := dijkstraLoop g allowedModes to_ g.nodeIds.length st0
    match st.dist to_ with
    | ⊤ => ⟨false, [], ⊤, 0, []⟩
    | (n : Nat) =>
      let pe := reconstructLoop st.prev st.edgeTo (g.nodeIds.length + 1) to_ [] []
      ⟨true, pe.1, (n : ℕ∞), st.cost to_, pe.2⟩

/-! ## Paths in the loaded graph

`Reaches g modes u v t` holds when the adjacency structure built by
`buildAdjacencyList` contains a path from `u` to `v` of total `time_min`
weight `t` whose every edge has a mode in `modes` — the notion of a path
restricted to allowed modes that claim C1 quantifies over. -/

inductive Reaches (g : Graph) (allowedModes : List Mode) :
    String → String → Nat → Prop
  | refl (u : String) : Reaches g allowedModes u u 0
  | step {u w : String} {t : Nat} (e : EdgeInfo) :
      e ∈ g.neighbors u → allowedModes.contains e.mode = true →
      Reaches g allowedModes e.to_ w t →
      Reaches g allowedModes u w (e.time_min + t)

/-- Paths all of whose vertices except possibly the last avoid `U` (the
still-unvisited set): the paths already fully processed by the search. -/
inductive ReachesV (g : Graph) (allowedModes : List Mode) (U : List String) :
    String → String → Nat → Prop
  | refl (u : String) : ReachesV g allowedModes U u u 0
  | step {u w : String} {t : Nat} (e : EdgeInfo) :
      u ∉ U → e ∈ g.neighbors u → allowedModes.contains e.mode = true →
      ReachesV g allowedModes U e.to_ w t →
      ReachesV g allowedModes U u w (e.time_min + t)

/-- The Dijkstra loop invariant, relative to source node `A`. -/
structure DijkstraInv (g : Graph) (allowedModes : List Mode) (A : String)
    (st : DijkstraState) : Prop where
  sub : ∀ v ∈ st.unvisited, v ∈ g.nodeIds
  nodup : st.unvisited.Nodup
  distA : st.dist A = 0
  sound : ∀ v, ∀ n : Nat, st.dist v = (n : ℕ∞) → Reaches g allowedModes A v n
  visFin : ∀ v ∈ g.nodeIds, v ∉ st.unvisited → st.dist v ≠ ⊤
  ordered : ∀ u ∈ g.nodeIds, u ∉ st.unvisited →
    ∀ v ∈ st.unvisited, st.dist u ≤ st.dist v
  relaxed : ∀ u, u ∉ st.unvisited → ∀ e ∈ g.neighbors u,
    allowedModes.contains e.mode = true →
    st.dist e.to_ ≤ st.dist u + (e.time_min : ℕ∞)

/-- What the final claim needs from the loop's result state. -/
def LoopGoal (g : Graph) (allowedModes : List Mode) (A B : String)
    (st : DijkstraState) : Prop :=
  (∀ n : Nat, st.dist B = (n : ℕ∞) →
    Reaches g allowedModes A B n ∧ ∀ m, Reaches g allowedModes A B m → n ≤ m) ∧
  (st.dist B = ⊤ → ∀ m, ¬ Reaches g allowedModes A B m)

/-! ## Distance-matrix client (src/infra/distanceMatrixClient.ts) -/

/-- The request travel mode, `driving` or `walking`. -/
inductive Submode where
  | driving
  | walking
deriving DecidableEq

def submodeStr : Submode → String
  | Submode.driving => ("driving")
  | Submode.walking => ("walking")

/-- Embeds `CacheEntry` (timestamp is `Date.now()` milliseconds). -/
structure CacheEntry where
  distanceMeters : Nat
  durationSeconds : Nat
  timestamp : Nat
deriving DecidableEq

/-- Embeds `UsageStats` together with the private `cache` map: the whole
mutable state of the `DistanceMatrixClient` singleton.  The cache `Map` is an
association list in insertion order. -/
structure ClientState where
  cache : List (String × CacheEntry)
  monthlyCount : Nat
  dailyCount : Nat
  lastReset : String
  cacheHits : Nat
  cacheMisses : Nat
deriving DecidableEq

def MONTHLY_LIMIT : Nat := 700

def DAILY_LIMIT : Nat := 50

def CACHE_TTL_DAYS : Nat := 7

/-- Embeds `DistanceMatrixResult` (the `raw` payload is dropped; no claim
mentions it). -/
structure DistanceMatrixResult where
  ok : Bool
  distanceMeters : Option Nat
  durationSeconds : Option Nat
  errorMessage : Option String
  fromCache : Option Bool
deriving DecidableEq

/-- One element of the provider response (`element.distance?.value` and
`element.duration?.value` may be absent). -/
structure DMElement where
  status : String
  distance : Option Nat
  duration : Option Nat
deriving DecidableEq

/-- One row of the provider response; `elements` may be absent in a
malformed payload. -/
structure DMRow where
  elements : Option (List DMElement)
deriving DecidableEq

/-- The provider response body; `rows` may be absent in a malformed
payload. -/
structure DMData where
  status : String
  rows : Option (List DMRow)
deriving DecidableEq

/-- Outcome of the single `axios.get`: either the promise rejects (timeout,
connection failure) with an error message, or it resolves with a body. -/
inductive NetOutcome where
  | exn (msg : String)
  | resp (data : DMData)
deriving DecidableEq

/-- Models `data.rows[0]?.elements[0]`: reading `[0]` of an absent `rows` or
`elements` throws a `TypeError` (caught by the surrounding `try`), an empty
array yields `undefined`, and the optional chain after `rows[0]` passes
`undefined` through. -/
def extractElement (data : DMData) : Except String (Option DMElement) :=
  match data.rows with
  | none => Except.error ("Cannot read properties of undefined")
  | some rows =>
    match rows.head? with
    | none => Except.ok none
    | some row =>
      match row.elements with
      | none => Except.error ("Cannot read properties of undefined")
      | some els => Except.ok els.head?

/-- Embeds `checkAndResetCounters`; `today` is the `YYYY-MM-DD` date read
from the clock on this call. -/
def checkAndResetCounters (today : String) (s : ClientState) : ClientState :=
  if s.lastReset ≠ today then
    let s1 := { s with dailyCount := 0 }
    let s2 :=
      if s1.lastReset.take 7 ≠ today.take 7 then { s1 with monthlyCount := 0 }
      else s1
    { s2 with lastReset := today }
  else s

/-- Embeds `isCacheValid`; `now` is `Date.now()` in milliseconds.  The
source computes `ageDays = ageMs / (1000*60*60*24)` in floating point and
compares `ageDays < CACHE_TTL_DAYS`; for every achievable `ageMs` the
rounded quotient stays on the same side of 7 (the nearest quotients are
about `1.2e-8` away from 7, far beyond double rounding error), so the test
equals the exact integer comparison `ageMs < CACHE_TTL_DAYS * 86400000`. -/
def isCacheValid (now : Nat) (entry : CacheEntry) : Bool :=
  let ageMs : Int := (now : Int) - (entry.timestamp : Int)
  decide (ageMs < (CACHE_TTL_DAYS : Int) * (1000 * 60 * 60 * 24))

def cacheKey (originNodeId destNodeId : String) (mode : Submode) : String :=
  originNodeId ++ ("|") ++ destNodeId ++ ("|") ++ submodeStr mode

/-- Embeds the cache `Map.get`. -/
def mapGet (m : List (String × CacheEntry)) (k : String) : Option CacheEntry :=
  (m.find? (fun p => p.1 == k)).map Prod.snd

/-- Embeds the cache `Map.set`: overwrite in place when the key exists, append otherwise. -/
def mapSet (m : List (String × CacheEntry)) (k : String) (v : CacheEntry) :
    List (String × CacheEntry) :=
  if m.any (fun p => p.1 == k) then
    m.map (fun p => if p.1 == k then (k, v) else p)
  else m ++ [(k, v)]

/-- The tail of `getLocalSegment` after a cache miss (no entry, or an entry
past its TTL): quota checks, node resolution, then the counted network
attempt.  Factored out because the source reaches this point from both
branches of the cache lookup. -/
def getLocalSegmentPastCache (g : Graph) (now : Nat)
    (net : NetOutcome) (s : ClientState) (key : String)
    (originNodeId destNodeId : String) :
    DistanceMatrixResult × ClientState × Bool :=
  if s.monthlyCount ≥ MONTHLY_LIMIT then
    (⟨false, none, none, some ("Monthly API quota exceeded"), none⟩, s, false)
  else if s.dailyCount ≥ DAILY_LIMIT then
    (⟨false, none, none, some ("Daily API quota exceeded"), none⟩, s, false)
  else
    match g.getNode originNodeId, g.getNode destNodeId with
    | some _, some _ =>
      let s1 := { s with cacheMisses := s.cacheMisses + 1 }
      match net with
      | NetOutcome.exn msg =>
        (⟨false, none, none, some (("Network error: ") ++ msg), none⟩, s1, true)
      | NetOutcome.resp data =>
        let s2 := { s1 with
          monthlyCount := s1.monthlyCount + 1
          dailyCount := s1.dailyCount + 1 }
        if data.status ≠ ("OK") then
          (⟨false, none, none, some (("API status: ") ++ data.status), none⟩, s2, true)
        else
          match extractElement data with
          | Except.error msg =>
            (⟨false, none, none, some (("Network error: ") ++ msg), none⟩, s2, true)
          | Except.ok none =>
            (⟨false, none, none, some (("Element status: ") ++ ("MISSING")), none⟩, s2, true)
          | Except.ok (some element) =>
            if element.status ≠ ("OK") then
              (⟨false, none, none, some (("Element status: ") ++ element.status), none⟩, s2, true)
            else
              let distanceMeters := element.distance.getD 0
              let durationSeconds := element.duration.getD 0
              (⟨true, some distanceMeters, some durationSeconds, none, some false⟩,
                { s2 with cache := mapSet s2.cache key ⟨distanceMeters, durationSeconds, now⟩ },
                true)
    | _, _ =>
      (⟨false, none, none, some ("Invalid node IDs"), none⟩, s, false)

/-- Embeds `getLocalSegment`.  Besides the call arguments, the ambient world
is passed explicitly: the graph singleton, the configured `apiKey`, the
clock readings `today`/`now`, and the outcome `net` of the single network
call (consumed only if that call is issued).  Returns the result, the
updated client state, and whether the network call was issued. -/
def getLocalSegment (g : Graph) (apiKey today : String) (now : Nat)
    (net : NetOutcome) (s0 : ClientState)
    (originNodeId destNodeId : String) (mode : Submode) :
    DistanceMatrixResult × ClientState × Bool :=
  if apiKey = "" then
    (⟨false, none, none, some ("Distance Matrix API key not configured"), none⟩, s0, false)
  else
    let s := checkAndResetCounters today s0
    let key := cacheKey originNodeId destNodeId mode
    match mapGet s.cache key with
    | some cached =>
      if isCacheValid now cached then
        (⟨true, some cached.distanceMeters, some cached.durationSeconds, none, some true⟩,
          { s with cacheHits := s.cacheHits + 1 }, false)
      else getLocalSegmentPastCache g now net s key originNodeId destNodeId
    | none => getLocalSegmentPastCache g now net s key originNodeId destNodeId

/-! ## Route planner (src/core/planner.ts) -/

inductive Source where
  | graph
  | distance_matrix
deriving DecidableEq

inductive Category where
  | fastest
  | least_local
  | both
deriving DecidableEq

inductive OptionType where
  | direct
  | transfer
  | local_only
deriving DecidableEq

/-- Embeds `RouteLeg` (optional fields as in the TypeScript interface). -/
structure RouteLeg where
  mode : Mode
  submode : Option Submode
  route_id : Option String
  trip_id : Option String
  from_ : String
  to_ : String
  departure : Option String
  arrival : Option String
  durationMin : Option Nat
  distanceMeters : Option Nat
  cost : Option Nat
  source : Option Source
deriving DecidableEq

instance : Inhabited RouteLeg :=
  ⟨⟨Mode.bus, none, none, none, ("") , ("") , none, none, none, none, none, none⟩⟩

/-- Embeds `RouteOption`. -/
structure RouteOption where
  label : String
  category : Category
  type : OptionType
  transfers : Nat
  totalTimeMin : Nat
  totalCost : Nat
  localTimeMin : Nat
  localDistanceMeters : Nat
  usesDistanceMatrix : Bool
  legs : List RouteLeg
deriving DecidableEq

instance : Inhabited RouteOption :=
  ⟨⟨("") , Category.fastest, OptionType.direct, 0, 0, 0, 0, 0, false, []⟩⟩

/-- Embeds `RouteResponse`. -/
structure RouteResponse where
  from_ : String
  to_ : String
  requestTime : String
  options : List RouteOption
deriving DecidableEq

/-- JS `Math.round(n / k)` for naturals (round half away from zero). -/
def roundDiv (n k : Nat) : Nat :=
  (n + k / 2) / k

/-- A finite `ℕ∞` as a number (the source reads `totalTime` only on found
paths, where it is finite). -/
def finTime (t : ℕ∞) : Nat :=
  t.untop' 0

/-- The type of the distance-matrix consultation the planner makes.  The
planner claims verified here are insensitive to client-state evolution:
every scenario exercised runs with an unconfigured client, for which
`getLocalSegment` provably leaves the state unchanged, so the singleton call
is embedded as a pure oracle. -/
def DMOracle : Type :=
  String → String → Submode → DistanceMatrixResult

/-- The body of the trip loop of `directBusRoute` for one trip: `none`
exactly when the source hits a `continue`. -/
def directTripOption (route : Route) (from_ to_ requestTime : String)
    (trip : Trip) : Option RouteOption :=
  match trip.stops.findIdx? (fun s => s == from_),
      trip.stops.findIdx? (fun s => s == to_) with
  | some fromIndex, some toIndex =>
    if fromIndex ≥ toIndex then none
    else
      let hopsBefore := fromIndex
      let tripStartMin := timeToMinutes (parseTime trip.departure_time)
      let timeToFrom := hopsBefore * 5
      let departureMin := tripStartMin + timeToFrom
      let requestMin := timeToMinutes (parseTime requestTime)
      if departureMin < requestMin then none
      else
        let hops := toIndex - fromIndex
        let travelTime := hops * 5
        let arrivalTime := addMinutes trip.departure_time (timeToFrom + travelTime)
        let departureTime := addMinutes trip.departure_time timeToFrom
        let leg : RouteLeg :=
          { mode := Mode.bus, submode := none
            route_id := some route.route_id, trip_id := some trip.trip_id
            from_ := from_, to_ := to_
            departure := some departureTime, arrival := some arrivalTime
            durationMin := some travelTime, distanceMeters := none
            cost := some 0, source := some Source.graph }
        some
          { label := route.name ++ (" Direct")
            category := Category.fastest, type := OptionType.direct
            transfers := 0
            totalTimeMin := travelTime + (departureMin - requestMin)
            totalCost := 0, localTimeMin := 0, localDistanceMeters := 0
            usesDistanceMatrix := false, legs := [leg] }
  | _, _ => none

/-- Embeds `directBusRoute`: the trip loop returns on the first qualifying
trip. -/
def directBusRoute (route : Route) (from_ to_ requestTime : String) :
    Option RouteOption :=
  route.trips.findSome? (directTripOption route from_ to_ requestTime)

/-- The per-drop-off body of `busToLocalRoute`'s inner loop, updating the
running `(minTotalTime, bestOption)` accumulator. -/
def hybridStep (g : Graph) (dm : DMOracle) (route : Route)
    (from_ to_ requestTime : String) (trip : Trip) (fromIndex : Nat)
    (acc : ℕ∞ × Option RouteOption) (i : Nat) : ℕ∞ × Option RouteOption :=
  let dropOffStop := trip.stops.getD i ("")
  if dropOffStop == to_ then acc
  else
    let localPath := g.localShortestPath dropOffStop to_ [Mode.walk, Mode.local_]
    let seg : Option (Nat × Nat × Nat × Bool) :=
      if localPath.found then
        some (finTime localPath.totalTime, localPath.totalCost, 0, false)
      else
        let dmResult := dm dropOffStop to_ Submode.driving
        if dmResult.ok then
          let localDistance := dmResult.distanceMeters.getD 0
          some (roundDiv (dmResult.durationSeconds.getD 0) 60,
            roundDiv localDistance 100 * 2, localDistance, true)
        else none
    match seg with
    | none => acc
    | some (localTime, localCost, localDistance, usedDM) =>
      let hopsBefore := fromIndex
      let busHops := i - fromIndex
      let timeToFrom := hopsBefore * 5
      let busTravelTime := busHops * 5
      let tripStartMin := timeToMinutes (parseTime trip.departure_time)
      let departureMin := tripStartMin + timeToFrom
      let requestMin := timeToMinutes (parseTime requestTime)
      if departureMin < requestMin then acc
      else
        let waitTime := departureMin - requestMin
        let totalTime := waitTime + busTravelTime + localTime
        if (totalTime : ℕ∞) < acc.1 then
          let busLeg : RouteLeg :=
            { mode := Mode.bus, submode := none
              route_id := some route.route_id, trip_id := some trip.trip_id
              from_ := from_, to_ := dropOffStop
              departure := some (addMinutes trip.departure_time timeToFrom)
              arrival := some (addMinutes trip.departure_time (timeToFrom + busTravelTime))
              durationMin := some busTravelTime, distanceMeters := none
              cost := some 0, source := some Source.graph }
          let localLeg : RouteLeg :=
            { mode := Mode.local_, submode := some Submode.driving
              route_id := none, trip_id := none
              from_ := dropOffStop, to_ := to_
              departure := none, arrival := none
              durationMin := some localTime, distanceMeters := some localDistance
              cost := some localCost
              source := some (if usedDM then Source.distance_matrix else Source.graph) }
          ((totalTime : ℕ∞),
            some
              { label := route.name ++ (" + Local")
                category := Category.fastest, type := OptionType.direct
                transfers := 0, totalTimeMin := totalTime
                totalCost := localCost, localTimeMin := localTime
                localDistanceMeters := localDistance
                usesDistanceMatrix := usedDM, legs := [busLeg, localLeg] })
        else acc

/-- Embeds `busToLocalRoute`: over all trips and drop-off stops after the
boarding index, keep the strictly best total time. -/
def busToLocalRoute (g : Graph) (dm : DMOracle) (route : Route)
    (from_ to_ requestTime : String) : Option RouteOption :=
  (route.trips.foldl
    (fun acc trip =>
      match trip.stops.findIdx? (fun s => s == from_) with
      | none => acc
      | some fromIndex =>
        ((List.range trip.stops.length).drop (fromIndex + 1)).foldl
          (hybridStep g dm route from_ to_ requestTime trip fromIndex) acc)
    ((⊤ : ℕ∞), none)).2

/-- The ordered de-duplicated stop set of a route
(`Set` insertion across all trips, then `Array.from`). -/
def routeStops (r : Route) : List String :=
  r.trips.foldl
    (fun acc trip =>
      trip.stops.foldl (fun acc s => if acc.contains s then acc else acc ++ [s]) acc)
    []

/-- Embeds `findTransferPoints`. -/
def findTransferPoints (route1 route2 : Route) : List String :=
  (routeStops route1).filter (fun s => (routeStops route2).contains s)

/-- Embeds `createTransferRoute`.  The non-null assertions on
`legs[0].arrival!`, `legs[0].departure!` and `legs[0].durationMin!` are
modelled with defaults; `directBusRoute` options always populate them. -/
def createTransferRoute (g : Graph) (route1 route2 : Route)
    (from_ to_ transferNode requestTime : String) : Option RouteOption :=
  match directBusRoute route1 from_ transferNode requestTime with
  | none => none
  | some leg1 =>
    let arrivalAtTransfer := ((leg1.legs[0]?).bind RouteLeg.arrival).getD ("")
    match directBusRoute route2 transferNode to_ arrivalAtTransfer with
    | none => none
    | some leg2 =>
      let arrivalMin := timeToMinutes (parseTime arrivalAtTransfer)
      let departureMin :=
        timeToMinutes (parseTime (((leg2.legs[0]?).bind RouteLeg.departure).getD ("")))
      let waitTime : Int := (departureMin : Int) - (arrivalMin : Int)
      if waitTime < 0 ∨ waitTime > 15 then none
      else
        let totalTime :=
          leg1.totalTimeMin + waitTime.toNat + (((leg2.legs[0]?).bind RouteLeg.durationMin).getD 0)
        some
          { label := ("Transfer at ") ++ (((g.getNode transferNode).map Node.name).getD ("undefined"))
            category := Category.fastest, type := OptionType.transfer
            transfers := 1, totalTimeMin := totalTime
            totalCost := 0, localTimeMin := 0, localDistanceMeters := 0
            usesDistanceMatrix := false, legs := leg1.legs ++ leg2.legs }

/-- Embeds `findTransferRoutes`: all ordered pairs of distinct routes, all
shared stops. -/
def findTransferRoutes (g : Graph) (from_ to_ requestTime : String) :
    List RouteOption :=
  g.getAllRoutes.foldl
    (fun acc route1 =>
      g.getAllRoutes.foldl
        (fun acc route2 =>
          if route1.route_id == route2.route_id then acc
          else
            (findTransferPoints route1 route2).foldl
              (fun acc transferNode =>
                match createTransferRoute g route1 route2 from_ to_ transferNode requestTime with
                | some o => acc ++ [o]
                | none => acc)
              acc)
        acc)
    []

/-- Embeds `localOnlyRoute`. -/
def localOnlyRoute (g : Graph) (dm : DMOracle) (from_ to_ : String) :
    Option RouteOption :=
  let localPath := g.localShortestPath from_ to_ [Mode.walk, Mode.local_]
  if localPath.found then
    let legs : List RouteLeg :=
      localPath.edges.enum.map
        (fun p =>
          { mode := p.2.mode, submode := none
            route_id := none, trip_id := none
            from_ := localPath.path.getD p.1 ("")
            to_ := localPath.path.getD (p.1 + 1) ("")
            departure := none, arrival := none
            durationMin := some p.2.time_min, distanceMeters := none
            cost := some p.2.cost, source := some Source.graph })
    some
      { label := ("Local Transport Only")
        category := Category.least_local, type := OptionType.local_only
        transfers := 0, totalTimeMin := finTime localPath.totalTime
        totalCost := localPath.totalCost, localTimeMin := finTime localPath.totalTime
        localDistanceMeters := 0, usesDistanceMatrix := false, legs := legs }
  else
    let dmResult := dm from_ to_ Submode.driving
    if dmResult.ok then
      let leg : RouteLeg :=
        { mode := Mode.local_, submode := some Submode.driving
          route_id := none, trip_id := none
          from_ := from_, to_ := to_
          departure := none, arrival := none
          durationMin := some (roundDiv (dmResult.durationSeconds.getD 0) 60)
          distanceMeters := some (dmResult.distanceMeters.getD 0)
          cost := some (roundDiv (dmResult.distanceMeters.getD 0) 100 * 2)
          source := some Source.distance_matrix }
      some
        { label := ("Local Transport Only")
          category := Category.least_local, type := OptionType.local_only
          transfers := 0, totalTimeMin := leg.durationMin.getD 0
          totalCost := leg.cost.getD 0, localTimeMin := leg.durationMin.getD 0
          localDistanceMeters := leg.distanceMeters.getD 0
          usesDistanceMatrix := true, legs := [leg] }
    else none

def modeStr : Mode → String
  | Mode.bus => ("bus")
  | Mode.local_ => ("local")
  | Mode.walk => ("walk")

/-- Embeds `getOptionId`: the leg-identity of an option. -/
def getOptionId (o : RouteOption) : String :=
  String.intercalate ("|")
    (o.legs.map (fun leg => leg.from_ ++ ("-") ++ leg.to_ ++ ("-") ++ modeStr leg.mode))

/-- Embeds `deduplicateOptions` (keep the first option per identity). -/
def deduplicateOptions (options : List RouteOption) : List RouteOption :=
  (options.foldl
    (fun acc o =>
      let id := getOptionId o
      if acc.1.contains id then acc else (acc.1 ++ [id], acc.2 ++ [o]))
    ([], [])).2

/-- Embeds `compareRoutes`.  The source relabels the selected `fastest` and
`leastLocal` objects in place; since `deduplicateOptions` leaves at most one
option per identity, object identity within `unique` coincides with
identity-string equality, which the `unique'` map uses to reflect that
mutation.  The fill loop reads `addedIds`, to which the source never adds
the least-local option's identity. -/
def compareRoutes (options : List RouteOption) : List RouteOption :=
  if options.isEmpty then []
  else
    let unique := deduplicateOptions options
    let fastest :=
      unique.foldl (fun acc o => if o.totalTimeMin < acc.totalTimeMin then o else acc)
        unique.headI
    let leastLocal :=
      unique.foldl (fun acc o => if o.localTimeMin < acc.localTimeMin then o else acc)
        unique.headI
    let fastestR := { fastest with category := Category.fastest, label := ("Fastest Route") }
    let leastLocalR :=
      { leastLocal with category := Category.least_local, label := ("Least Local Transport") }
    let unique' :=
      unique.map
        (fun o =>
          if getOptionId o == getOptionId fastest then fastestR
          else if getOptionId o == getOptionId leastLocal then leastLocalR
          else o)
    let result := [fastestR]
    let addedIds := [getOptionId fastestR]
    let result :=
      if (getOptionId leastLocal == getOptionId fastest) = false then result ++ [leastLocalR]
      else result
    (unique'.foldl
      (fun acc o =>
        if acc.1.length ≥ 3 then acc
        else
          let id := getOptionId o
          if acc.2.contains id then acc else (acc.1 ++ [o], acc.2 ++ [id]))
      (result, addedIds)).1

/-- Embeds `planRoute` (the unused `currentRoute` parameter is dropped). -/
def planRoute (g : Graph) (dm : DMOracle) (from_ to_ requestTime : String) :
    RouteResponse :=
  if (g.hasNode from_ && g.hasNode to_) = false then ⟨from_, to_, requestTime, []⟩
  else if from_ == to_ then ⟨from_, to_, requestTime, []⟩
  else
    let options :=
      g.getAllRoutes.foldl
        (fun acc route =>
          let acc1 :=
            match directBusRoute route from_ to_ requestTime with
            | some o => acc ++ [o]
            | none => acc
          match busToLocalRoute g dm route from_ to_ requestTime with
          | some o => acc1 ++ [o]
          | none => acc1)
        []
    let options := options ++ findTransferRoutes g from_ to_ requestTime
    let options :=
      match localOnlyRoute g dm from_ to_ with
      | some o => options ++ [o]
      | none => options
    ⟨from_, to_, requestTime, compareRoutes options⟩

/-! ## Claim-side predicates and concrete instances -/

/-- The qualification condition of claim C3, read off the guards of
`directBusRoute`: the trip serves both stops with the boarding index
strictly before the alighting index, and the estimated boarding time
(departure_time plus boarding-index × 5) is not earlier than the requested
time. -/
def tripQualifies (trip : Trip) (from_ to_ requestTime : String) : Bool :=
  match trip.stops.findIdx? (fun s => s == from_),
      trip.stops.findIdx? (fun s => s == to_) with
  | some fromIndex, some toIndex =>
    if fromIndex ≥ toIndex then false
    else
      decide (timeToMinutes (parseTime trip.departure_time) + fromIndex * 5
        ≥ timeToMinutes (parseTime requestTime))
  | _, _ => false

/-- The `DistanceMatrixResult` of an unconfigured client. -/
def notConfiguredResult : DistanceMatrixResult :=
  ⟨false, none, none, some ("Distance Matrix API key not configured"), none⟩

/-- The planner's distance-matrix oracle induced by the embedded client in a
fixed world: each consultation returns what `getLocalSegment` would.  The
scenarios verified below run with an empty `apiKey`, for which
`getLocalSegment` leaves the client state unchanged
(`getLocalSegment_unconfigured`), so a state-free oracle is exact. -/
def dmOf (g : Graph) (apiKey today : String) (now : Nat) (net : NetOutcome)
    (s : ClientState) : DMOracle :=
  fun o d m => (getLocalSegment g apiKey today now net s o d m).1

/-- An idle client state. -/
def idleClient : ClientState :=
  ⟨[], 0, 0, ("2026-01-01"), 0, 0⟩

/-- Witness graph for C1: `A —walk(2)— B —local(3)— C`. -/
def gW : Graph :=
  { nodes := [⟨("A"), ("Node A"), ("a")⟩, ⟨("B"), ("Node B"), ("b")⟩,
      ⟨("C"), ("Node C"), ("c")⟩]
    edges := [⟨("A"), ("B"), Mode.walk, 2, 0, false⟩,
      ⟨("B"), ("C"), Mode.local_, 3, 20, false⟩]
    routes := [] }

/-- The C5 scenario graph: nodes `{A, B, C}`, no local edges, one bus route
with a single trip `[A, B, C]` departing 08:00. -/
def gC5 : Graph :=
  { nodes := [⟨("A"), ("Node A"), ("a")⟩, ⟨("B"), ("Node B"), ("b")⟩,
      ⟨("C"), ("Node C"), ("c")⟩]
    edges := []
    routes := [⟨("bus1"), ("Bus 1"), [⟨("t1"), [("A"), ("B"), ("C")], ("08:00")⟩]⟩] }

/-- The unconfigured oracle used by the planner scenarios. -/
def dmC5 : DMOracle :=
  dmOf gC5 ("") ("2026-01-01") 0 (NetOutcome.exn ("unreachable")) idleClient

/-- The C2 failing input: a direct bus `A→B` (5 min ride) and a faster local
edge `A—B` (3 min), so the fastest and least-local winners differ. -/
def gC2 : Graph :=
  { nodes := [⟨("A"), ("Node A"), ("a")⟩, ⟨("B"), ("Node B"), ("b")⟩]
    edges := [⟨("A"), ("B"), Mode.local_, 3, 20, false⟩]
    routes := [⟨("bus1"), ("Bus 1"), [⟨("t1"), [("A"), ("B")], ("08:00")⟩]⟩] }

def dmC2 : DMOracle :=
  dmOf gC2 ("") ("2026-01-01") 0 (NetOutcome.exn ("unreachable")) idleClient

/-- The C3 counterexample route: two trips, both qualifying for `A → B` at
08:00. -/
def routeC3 : Route :=
  ⟨("bus1"), ("Bus 1"),
    [⟨("t1"), [("A"), ("B")], ("08:00")⟩, ⟨("t2"), [("A"), ("B")], ("09:00")⟩]⟩

/-- A two-node graph for the distance-matrix client scenarios (both ids
resolve through `getNode`). -/
def gSeg : Graph :=
  { nodes := [⟨("A"), ("Node A"), ("addr A")⟩, ⟨("B"), ("Node B"), ("addr B")⟩]
    edges := []
    routes := [] }

/-- C4 counterexample state: the daily limit is reached, but a fresh cache
entry for `(A, B, driving)` is present. -/
def sC4 : ClientState :=
  ⟨[((("A") ++ ("|") ++ ("B") ++ ("|") ++ ("driving")), ⟨1200, 300, 1000⟩)],
    0, 50, ("2026-01-01"), 0, 0⟩

/-- C6 counterexample state: a fresh cache entry, `dailyCount = 5`, and a
`lastReset` one day before the call's date. -/
def sC6 : ClientState :=
  ⟨[((("A") ++ ("|") ++ ("B") ++ ("|") ++ ("driving")), ⟨1200, 300, 1000⟩)],
    7, 5, ("2026-01-01"), 0, 0⟩

/-- C7 counterexample state: empty cache and the monthly limit reached. -/
def sC7 : ClientState :=
  ⟨[], 700, 0, ("2026-01-01"), 0, 0⟩

/-- C8 witness state: quota available, empty cache. -/
def sC8 : ClientState :=
  ⟨[], 10, 3, ("2026-01-01"), 0, 0⟩

/-- C4 witness state: empty cache, daily limit reached, monthly below. -/
def sC4W : ClientState :=
  ⟨[], 0, 50, ("2026-01-01"), 0, 0⟩

/-- C8 witness response: provider top-level status not OK. -/
def dataC8 : DMData :=
  ⟨("OVER_QUERY_LIMIT"), some []⟩

/-! ## Theorems -/

theorem mem_edgeEntriesFold (n : String) (es : List Edge) (e : EdgeInfo)
    (h : e ∈ es.foldr (fun ed acc => edgeEntries n ed ++ acc) []) :
    ∃ ed ∈ es, (ed.from_ = n ∧ e = fwdInfo ed) ∨
      (ed.one_way = false ∧ ed.to_ = n ∧ e = revInfo ed) := by
  induction es with
  | nil => simp at h
  | cons hd tl ih =>
    simp only [List.foldr_cons, List.mem_append] at h
    rcases h with h | h
    · refine ⟨hd, List.mem_cons_self .., ?_⟩
      unfold edgeEntries at h
      rcases List.mem_append.mp h with h | h
      · split at h
        · simp only [List.mem_singleton] at h
          exact Or.inl ⟨by assumption, h⟩
        · simp at h
      · split at h
        · simp only [List.mem_singleton] at h
          rename_i hc
          exact Or.inr ⟨hc.1, hc.2, h⟩
        · simp at h
    · obtain ⟨ed, hed, hprop⟩ := ih h
      exact ⟨ed, List.mem_cons_of_mem _ hed, hprop⟩

theorem mem_neighbors (g : Graph) (n : String) (e : EdgeInfo)
    (h : e ∈ g.neighbors n) :
    ∃ ed ∈ g.edges, (ed.from_ = n ∧ e = fwdInfo ed) ∨
      (ed.one_way = false ∧ ed.to_ = n ∧ e = revInfo ed) := by
  unfold Graph.neighbors at h
  split at h
  · exact mem_edgeEntriesFold n g.edges e h
  · simp at h

theorem neighbors_to_mem_nodeIds (g : Graph) (hWF : g.WF) (n : String)
    (e : EdgeInfo) (h : e ∈ g.neighbors n) : e.to_ ∈ g.nodeIds := by
  obtain ⟨ed, hed, hprop⟩ := mem_neighbors g n e h
  rcases hprop with ⟨_, rfl⟩ | ⟨_, _, rfl⟩
  · exact (hWF.2 ed hed).2
  · exact (hWF.2 ed hed).1


theorem mem_nodeIds_of_neighbors (g : Graph) (u : String) (e : EdgeInfo)
    (h : e ∈ g.neighbors u) : u ∈ g.nodeIds := by
  unfold Graph.neighbors at h
  split at h
  · rename_i hc
    simpa using hc
  · simp at h

theorem Reaches.snoc {g : Graph} {allowedModes : List Mode} {u v : String}
    {n : Nat} (h : Reaches g allowedModes u v n) (e : EdgeInfo)
    (he : e ∈ g.neighbors v) (hm : allowedModes.contains e.mode = true) :
    Reaches g allowedModes u e.to_ (n + e.time_min) := by
  induction h with
  | refl w =>
    have := Reaches.step e he hm (Reaches.refl e.to_)
    simpa using this
  | step e' he' hm' _ ih =>
    have := Reaches.step e' he' hm' (ih he)
    rw [← Nat.add_assoc] at this
    exact this

theorem Reaches.target_mem {g : Graph} {allowedModes : List Mode}
    {u v : String} {n : Nat} (hWF : g.WF)
    (h : Reaches g allowedModes u v n) : v = u ∨ v ∈ g.nodeIds := by
  induction h with
  | refl w => exact Or.inl rfl
  | step e he hm tail ih =>
    right
    rcases ih with h' | hv
    · rw [h']
      exact neighbors_to_mem_nodeIds _ hWF _ _ he
    · exact hv

theorem reachesV_bound {g : Graph} {allowedModes : List Mode}
    {U : List String} {dist : String → ℕ∞}
    (hrel : ∀ u, u ∉ U → ∀ e ∈ g.neighbors u,
      allowedModes.contains e.mode = true →
      dist e.to_ ≤ dist u + (e.time_min : ℕ∞))
    {u v : String} {m : Nat} (h : ReachesV g allowedModes U u v m) :
    dist v ≤ dist u + (m : ℕ∞) := by
  induction h with
  | refl w => simp
  | step e hu he hm tail ih =>
    have h1 := hrel _ hu e he hm
    calc dist _ ≤ dist e.to_ + _ := ih
      _ ≤ (dist _ + (e.time_min : ℕ∞)) + _ := add_le_add_right h1 _
      _ = dist _ + ((e.time_min : ℕ∞) + _) := by rw [add_assoc]
      _ = dist _ + _ := by rw [← Nat.cast_add]

theorem reaches_decompose (g : Graph) (allowedModes : List Mode)
    (U : List String) {u v : String} {m : Nat}
    (h : Reaches g allowedModes u v m) :
    ReachesV g allowedModes U u v m ∨
      ∃ x ∈ U, ∃ m1 m2, m = m1 + m2 ∧ ReachesV g allowedModes U u x m1 ∧
        Reaches g allowedModes x v m2 := by
  induction h with
  | refl w => exact Or.inl (ReachesV.refl w)
  | step e he hm tail ih =>
    rename_i u' w' t'
    by_cases hu : u' ∈ U
    · exact Or.inr ⟨u', hu, 0, e.time_min + t', by omega, ReachesV.refl u',
        Reaches.step e he hm tail⟩
    · rcases ih with hv | ⟨x, hx, m1, m2, heq, hrv, hr⟩
      · exact Or.inl (ReachesV.step e hu he hm hv)
      · exact Or.inr ⟨x, hx, e.time_min + m1, m2, by omega,
          ReachesV.step e hu he hm hrv, hr⟩

theorem findMin_foldl_spec (dist : String → ℕ∞) (U : List String)
    (acc : Option String × ℕ∞) :
    (U.foldl (fun acc n => if dist n < acc.2 then (some n, dist n) else acc) acc
        = acc ∨
      ∃ c ∈ U,
        U.foldl (fun acc n => if dist n < acc.2 then (some n, dist n) else acc) acc
          = (some c, dist c) ∧ dist c < acc.2) ∧
    (∀ x ∈ U,
      (U.foldl (fun acc n => if dist n < acc.2 then (some n, dist n) else acc) acc).2
        ≤ dist x) ∧
    (U.foldl (fun acc n => if dist n < acc.2 then (some n, dist n) else acc) acc).2
      ≤ acc.2 := by
  induction U generalizing acc with
  | nil => simp
  | cons hd tl ih =>
    simp only [List.foldl_cons]
    by_cases hlt : dist hd < acc.2
    · rw [if_pos hlt]
      obtain ⟨h1, h2, h3⟩ := ih (some hd, dist hd)
      refine ⟨?_, ?_, ?_⟩
      · rcases h1 with h1 | ⟨c, hc, h1, h1'⟩
        · exact Or.inr ⟨hd, List.mem_cons_self .., h1, hlt⟩
        · exact Or.inr ⟨c, List.mem_cons_of_mem _ hc, h1, lt_trans h1' hlt⟩
      · intro x hx
        rcases List.mem_cons.mp hx with rfl | hx
        · exact h3
        · exact h2 x hx
      · exact le_trans h3 (le_of_lt hlt)
    · rw [if_neg hlt]
      obtain ⟨h1, h2, h3⟩ := ih acc
      refine ⟨h1.imp id ?_, ?_, h3⟩
      · rintro ⟨c, hc, h⟩
        exact ⟨c, List.mem_cons_of_mem _ hc, h⟩
      · intro x hx
        rcases List.mem_cons.mp hx with rfl | hx
        · exact le_trans h3 (not_lt.mp hlt)
        · exact h2 x hx

theorem findMin_none (dist : String → ℕ∞) (U : List String)
    (h : (findMin dist U).1 = none) : ∀ x ∈ U, dist x = ⊤ := by
  intro x hx
  unfold findMin at h
  obtain ⟨h1, h2, _⟩ := findMin_foldl_spec dist U (none, ⊤)
  rcases h1 with h1 | ⟨c, hc, h1, _⟩
  · have hle := h2 x hx
    rw [h1] at hle
    exact top_le_iff.mp hle
  · rw [h1] at h
    simp at h

theorem findMin_some (dist : String → ℕ∞) (U : List String) (c : String)
    (h : (findMin dist U).1 = some c) :
    c ∈ U ∧ (findMin dist U).2 = dist c ∧ dist c ≠ ⊤ ∧
      ∀ x ∈ U, dist c ≤ dist x := by
  unfold findMin at h ⊢
  obtain ⟨h1, h2, _⟩ := findMin_foldl_spec dist U (none, ⊤)
  rcases h1 with h1 | ⟨c', hc', h1, h1'⟩
  · rw [h1] at h
    simp at h
  · rw [h1] at h h2 ⊢
    obtain rfl : c' = c := by simpa using h
    refine ⟨hc', rfl, ?_, fun x hx => h2 x hx⟩
    exact lt_top_iff_ne_top.mp h1'

theorem relaxStep_unvisited (allowedModes : List Mode) (current : String)
    (st : DijkstraState) (e : EdgeInfo) :
    (relaxStep allowedModes current st e).unvisited = st.unvisited := by
  unfold relaxStep
  split
  · rfl
  · split
    · rfl
    · split
      · rfl
      · rfl

theorem relaxStep_dist_cases (allowedModes : List Mode) (current : String)
    (st : DijkstraState) (e : EdgeInfo) (v : String) :
    (relaxStep allowedModes current st e).dist v = st.dist v ∨
      (v = e.to_ ∧ v ∈ st.unvisited ∧ allowedModes.contains e.mode = true ∧
        (relaxStep allowedModes current st e).dist v
          = st.dist current + (e.time_min : ℕ∞) ∧
        st.dist current + (e.time_min : ℕ∞) < st.dist v) := by
  unfold relaxStep
  split
  · exact Or.inl rfl
  · split
    · exact Or.inl rfl
    · split
      · rename_i hmode hmem hlt
        by_cases hv : v = e.to_
        · subst hv
          refine Or.inr ⟨rfl, ?_, by simpa using hmode, ?_, hlt⟩
          · exact List.elem_iff.mp (by simpa using hmem)
          · show upd st.dist e.to_ _ e.to_ = _
            unfold upd
            simp
        · left
          show upd st.dist e.to_ _ v = _
          unfold upd
          simp [hv]
      · exact Or.inl rfl

theorem relaxStep_dist_le (allowedModes : List Mode) (current : String)
    (st : DijkstraState) (e : EdgeInfo) (v : String) :
    (relaxStep allowedModes current st e).dist v ≤ st.dist v := by
  rcases relaxStep_dist_cases allowedModes current st e v with h | ⟨_, _, _, h, hlt⟩
  · exact le_of_eq h
  · rw [h]
    exact le_of_lt hlt

theorem relaxFold_unvisited (allowedModes : List Mode) (current : String)
    (es : List EdgeInfo) (st : DijkstraState) :
    (es.foldl (relaxStep allowedModes current) st).unvisited = st.unvisited := by
  induction es generalizing st with
  | nil => rfl
  | cons hd tl ih =>
    simp only [List.foldl_cons]
    rw [ih, relaxStep_unvisited]

theorem relaxFold_dist_le (allowedModes : List Mode) (current : String)
    (es : List EdgeInfo) (st : DijkstraState) (v : String) :
    (es.foldl (relaxStep allowedModes current) st).dist v ≤ st.dist v := by
  induction es generalizing st with
  | nil => exact le_refl _
  | cons hd tl ih =>
    simp only [List.foldl_cons]
    exact le_trans (ih _) (relaxStep_dist_le allowedModes current st hd v)

theorem relaxFold_dist_off (allowedModes : List Mode) (current : String)
    (es : List EdgeInfo) (st : DijkstraState) (v : String)
    (hv : v ∉ st.unvisited) :
    (es.foldl (relaxStep allowedModes current) st).dist v = st.dist v := by
  induction es generalizing st with
  | nil => rfl
  | cons hd tl ih =>
    simp only [List.foldl_cons]
    have hstep : (relaxStep allowedModes current st hd).dist v = st.dist v := by
      rcases relaxStep_dist_cases allowedModes current st hd v with h | ⟨_, hmem, _⟩
      · exact h
      · exact absurd hmem hv
    rw [ih _ (by rwa [relaxStep_unvisited]), hstep]

theorem relaxFold_dist_lb (allowedModes : List Mode) (current : String)
    (es : List EdgeInfo) (st : DijkstraState)
    (hcur : current ∉ st.unvisited) (v : String) :
    (es.foldl (relaxStep allowedModes current) st).dist v = st.dist v ∨
      st.dist current ≤ (es.foldl (relaxStep allowedModes current) st).dist v := by
  induction es generalizing st with
  | nil => exact Or.inl rfl
  | cons hd tl ih =>
    simp only [List.foldl_cons]
    have hcur1 : current ∉ (relaxStep allowedModes current st hd).unvisited := by
      rwa [relaxStep_unvisited]
    have hdc : (relaxStep allowedModes current st hd).dist current = st.dist current := by
      rcases relaxStep_dist_cases allowedModes current st hd current with h | ⟨_, hmem, _⟩
      · exact h
      · exact absurd hmem hcur
    rcases ih _ hcur1 with h | h
    · rw [h]
      rcases relaxStep_dist_cases allowedModes current st hd v with h' | ⟨_, _, _, h', _⟩
      · exact Or.inl h'
      · rw [h']
        exact Or.inr le_self_add
    · rw [hdc] at h
      exact Or.inr h

theorem relaxFold_sound (g : Graph) (allowedModes : List Mode) (A current : String)
    (es : List EdgeInfo) (st : DijkstraState)
    (hes : ∀ e ∈ es, e ∈ g.neighbors current)
    (hsound : ∀ v, ∀ n : Nat, st.dist v = (n : ℕ∞) → Reaches g allowedModes A v n) :
    ∀ v, ∀ n : Nat,
      (es.foldl (relaxStep allowedModes current) st).dist v = (n : ℕ∞) →
      Reaches g allowedModes A v n := by
  induction es generalizing st with
  | nil => exact hsound
  | cons hd tl ih =>
    simp only [List.foldl_cons]
    refine ih _ (fun e he => hes e (List.mem_cons_of_mem _ he)) ?_
    intro v n hv
    rcases relaxStep_dist_cases allowedModes current st hd v with h | ⟨hveq, _, hmode, h, _⟩
    · exact hsound v n (h ▸ hv)
    · rw [h] at hv
      cases hdc : st.dist current with
      | top =>
        rw [hdc] at hv
        simp at hv
      | coe nc =>
        rw [hdc, ← Nat.cast_add] at hv
        have hn : nc + hd.time_min = n := by exact_mod_cast hv
        subst hn
        subst hveq
        exact (hsound current nc hdc).snoc hd (hes hd (List.mem_cons_self ..)) hmode

theorem relaxFold_bound (allowedModes : List Mode) (current : String)
    (es : List EdgeInfo) (st : DijkstraState)
    (hcur : current ∉ st.unvisited) :
    ∀ e ∈ es, allowedModes.contains e.mode = true → e.to_ ∈ st.unvisited →
      (es.foldl (relaxStep allowedModes current) st).dist e.to_
        ≤ st.dist current + (e.time_min : ℕ∞) := by
  induction es generalizing st with
  | nil =>
    intro e he _ _
    simp at he
  | cons hd tl ih =>
    intro e he hmode hmem
    simp only [List.foldl_cons]
    have hdc : (relaxStep allowedModes current st hd).dist current = st.dist current := by
      rcases relaxStep_dist_cases allowedModes current st hd current with h | ⟨_, hm, _⟩
      · exact h
      · exact absurd hm hcur
    rcases List.mem_cons.mp he with rfl | he
    · have hstep : (relaxStep allowedModes current st e).dist e.to_
          ≤ st.dist current + (e.time_min : ℕ∞) := by
        unfold relaxStep
        rw [if_neg (not_not_intro (by simpa using hmode)),
          if_neg (not_not_intro (by simpa using List.elem_iff.mpr hmem))]
        split
        · show upd st.dist e.to_ _ e.to_ ≤ _
          unfold upd
          simp
        · rename_i hnlt
          exact not_lt.mp hnlt
      exact le_trans
        (le_trans (relaxFold_dist_le allowedModes current tl _ e.to_) hstep)
        (le_of_eq rfl)
    · have := ih (relaxStep allowedModes current st hd)
        (by rwa [relaxStep_unvisited]) e he hmode
        (by rwa [relaxStep_unvisited])
      rwa [hdc] at this

theorem select_lb (g : Graph) (allowedModes : List Mode) (A : String)
    (st : DijkstraState) (inv : DijkstraInv g allowedModes A st)
    (current : String) (h : (findMin st.dist st.unvisited).1 = some current) :
    ∀ m : Nat, Reaches g allowedModes A current m →
      st.dist current ≤ (m : ℕ∞) := by
  intro m hr
  obtain ⟨hcU, _, _, hmin⟩ := findMin_some st.dist st.unvisited current h
  rcases reaches_decompose g allowedModes st.unvisited hr with
    hv | ⟨x, hx, m1, m2, rfl, hrv, _⟩
  · have hb := reachesV_bound inv.relaxed hv
    rwa [inv.distA, zero_add] at hb
  · have h1 := reachesV_bound inv.relaxed hrv
    rw [inv.distA, zero_add] at h1
    calc st.dist current ≤ st.dist x := hmin x hx
      _ ≤ (m1 : ℕ∞) := h1
      _ ≤ ((m1 + m2 : Nat) : ℕ∞) := by
        rw [Nat.cast_add]
        exact le_self_add

theorem global_lb (g : Graph) (allowedModes : List Mode) (A : String)
    (st : DijkstraState) (inv : DijkstraInv g allowedModes A st)
    (hall : ∀ x ∈ st.unvisited, st.dist x = ⊤) :
    ∀ v, ∀ m : Nat, Reaches g allowedModes A v m → st.dist v ≤ (m : ℕ∞) := by
  intro v m hr
  rcases reaches_decompose g allowedModes st.unvisited hr with
    hv | ⟨x, hx, m1, m2, rfl, hrv, _⟩
  · have hb := reachesV_bound inv.relaxed hv
    rwa [inv.distA, zero_add] at hb
  · have h1 := reachesV_bound inv.relaxed hrv
    rw [inv.distA, zero_add, hall x hx] at h1
    exact absurd (top_le_iff.mp h1) (ENat.coe_ne_top m1)

theorem loopGoal_of_allTop (g : Graph) (allowedModes : List Mode)
    (A B : String) (st : DijkstraState)
    (inv : DijkstraInv g allowedModes A st)
    (hall : ∀ x ∈ st.unvisited, st.dist x = ⊤) :
    LoopGoal g allowedModes A B st := by
  constructor
  · intro n hn
    refine ⟨inv.sound B n hn, ?_⟩
    intro m hm
    have hle := global_lb g allowedModes A st inv hall B m hm
    rw [hn] at hle
    exact_mod_cast hle
  · intro htop m hm
    have hle := global_lb g allowedModes A st inv hall B m hm
    rw [htop] at hle
    exact absurd (top_le_iff.mp hle) (ENat.coe_ne_top m)

theorem inv_preserved (g : Graph) (allowedModes : List Mode) (A : String)
    (st : DijkstraState) (hWF : g.WF)
    (inv : DijkstraInv g allowedModes A st) (current : String)
    (hsel : (findMin st.dist st.unvisited).1 = some current) :
    DijkstraInv g allowedModes A
      (relax g allowedModes current
        { st with unvisited := st.unvisited.erase current }) := by
  obtain ⟨hcU, _, hfin, hmin⟩ := findMin_some st.dist st.unvisited current hsel
  have hlb := select_lb g allowedModes A st inv current hsel
  have hmemE : ∀ v, v ∈ st.unvisited.erase current ↔
      v ≠ current ∧ v ∈ st.unvisited := fun v => inv.nodup.mem_erase_iff
  have hcurE : current ∉ st.unvisited.erase current := by
    intro hc
    exact ((hmemE current).mp hc).1 rfl
  set stE : DijkstraState := { st with unvisited := st.unvisited.erase current }
    with hstE
  have hUR : (relax g allowedModes current stE).unvisited = st.unvisited.erase current :=
    relaxFold_unvisited _ _ _ _
  have hoff : ∀ v, v ∉ st.unvisited.erase current →
      (relax g allowedModes current stE).dist v = st.dist v := fun v hv =>
    relaxFold_dist_off _ _ _ _ v hv
  have hle : ∀ v, (relax g allowedModes current stE).dist v ≤ st.dist v :=
    fun v => relaxFold_dist_le _ _ _ _ v
  have hlb2 : ∀ v, (relax g allowedModes current stE).dist v = st.dist v ∨
      st.dist current ≤ (relax g allowedModes current stE).dist v := fun v =>
    relaxFold_dist_lb _ _ _ _ hcurE v
  have hdcR : (relax g allowedModes current stE).dist current = st.dist current :=
    hoff current hcurE
  constructor
  · intro v hv
    rw [hUR] at hv
    exact inv.sub v (List.mem_of_mem_erase hv)
  · rw [hUR]
    exact inv.nodup.erase current
  · have h0 := hle A
    rw [inv.distA] at h0
    exact nonpos_iff_eq_zero.mp h0
  · exact relaxFold_sound g allowedModes A current _ stE (fun e he => he) inv.sound
  · intro v hvN hv
    rw [hUR] at hv
    by_cases hvc : v = current
    · subst hvc
      rw [hdcR]
      exact hfin
    · have hvU : v ∉ st.unvisited := by
        intro hmem
        exact hv ((hmemE v).mpr ⟨hvc, hmem⟩)
      rw [hoff v hv]
      exact inv.visFin v hvN hvU
  · intro u huN hu v hv
    rw [hUR] at hu hv
    obtain ⟨hvc, hvU⟩ := (hmemE v).mp hv
    have hRv := hlb2 v
    by_cases huc : u = current
    · subst huc
      rw [hdcR]
      rcases hRv with h | h
      · rw [h]
        exact hmin v hvU
      · exact h
    · have huU : u ∉ st.unvisited := by
        intro hmem
        exact hu ((hmemE u).mpr ⟨huc, hmem⟩)
      rw [hoff u hu]
      rcases hRv with h | h
      · rw [h]
        exact inv.ordered u huN huU v hvU
      · exact le_trans (inv.ordered u huN huU current hcU) h
  · intro u hu e he hmode
    rw [hUR] at hu
    by_cases huc : u = current
    · rw [huc] at he ⊢
      rw [hdcR]
      by_cases htE : e.to_ ∈ st.unvisited.erase current
      · exact relaxFold_bound allowedModes current _ stE hcurE e he hmode htE
      · by_cases htc : e.to_ = current
        · rw [hoff _ htE, htc]
          exact le_self_add
        · have htU : e.to_ ∉ st.unvisited := by
            intro hmem
            exact htE ((hmemE e.to_).mpr ⟨htc, hmem⟩)
          rw [hoff _ htE]
          exact le_trans
            (inv.ordered e.to_ (neighbors_to_mem_nodeIds g hWF _ e he) htU current hcU)
            le_self_add
    · have huU : u ∉ st.unvisited := by
        intro hmem
        exact hu ((hmemE u).mpr ⟨huc, hmem⟩)
      rw [hoff u hu]
      exact le_trans (hle e.to_) (inv.relaxed u huU e he hmode)

theorem dijkstraLoop_spec (g : Graph) (allowedModes : List Mode)
    (A B : String) (hWF : g.WF) :
    ∀ fuel : Nat, ∀ st : DijkstraState, DijkstraInv g allowedModes A st →
      st.unvisited.length ≤ fuel →
      LoopGoal g allowedModes A B (dijkstraLoop g allowedModes B fuel st) := by
  intro fuel
  induction fuel with
  | zero =>
    intro st inv hlen
    have hempty : st.unvisited = [] := List.length_eq_zero.mp (Nat.le_zero.mp hlen)
    unfold dijkstraLoop
    refine loopGoal_of_allTop g allowedModes A B st inv ?_
    rw [hempty]
    intro x hx
    simp at hx
  | succ fuel ih =>
    intro st inv hlen
    unfold dijkstraLoop
    by_cases hE : st.unvisited.isEmpty
    · rw [if_pos hE]
      refine loopGoal_of_allTop g allowedModes A B st inv ?_
      rw [List.isEmpty_iff.mp hE]
      intro x hx
      simp at hx
    · rw [if_neg hE]
      rcases hfm : findMin st.dist st.unvisited with ⟨copt, d⟩
      cases copt with
      | none =>
        have hall := findMin_none st.dist st.unvisited (by rw [hfm])
        dsimp only
        exact loopGoal_of_allTop g allowedModes A B st inv hall
      | some current =>
        have hsel : (findMin st.dist st.unvisited).1 = some current := by rw [hfm]
        dsimp only
        obtain ⟨hcU, _, hfin, hmin⟩ := findMin_some st.dist st.unvisited current hsel
        by_cases hcB : current = B
        · rw [if_pos hcB]
          subst hcB
          constructor
          · intro n hn
            refine ⟨inv.sound current n hn, ?_⟩
            intro m hm
            have hle2 := select_lb g allowedModes A st inv current hsel m hm
            rw [show ({ st with unvisited := st.unvisited.erase current } :
              DijkstraState).dist = st.dist from rfl] at hn
            rw [hn] at hle2
            exact_mod_cast hle2
          · intro htop
            rw [show ({ st with unvisited := st.unvisited.erase current } :
              DijkstraState).dist = st.dist from rfl] at htop
            exact absurd htop hfin
        · rw [if_neg hcB]
          have hinv2 := inv_preserved g allowedModes A st hWF inv current hsel
          have hlen2 : (relax g allowedModes current
              { st with unvisited := st.unvisited.erase current }).unvisited.length
              ≤ fuel := by
            unfold relax
            rw [relaxFold_unvisited]
            have := List.length_erase_of_mem hcU
            simp only at this ⊢
            omega
          exact ih _ hinv2 hlen2

/-- Claim C1: for every well-formed graph and nodes `A`, `B` with `B` reachable
from `A` through edges whose mode is allowed, `localShortestPath` reports
`found = true` and a `totalTime` equal to the true minimum total `time_min`
over all such mode-restricted paths. -/
theorem localShortestPath_correct (g : Graph) (allowedModes : List Mode)
    (A B : String) (hWF : g.WF) (hA : A ∈ g.nodeIds) (hB : B ∈ g.nodeIds)
    (t0 : Nat) (hreach : Reaches g allowedModes A B t0) :
    (g.localShortestPath A B allowedModes).found = true ∧
    ∃ n : Nat, (g.localShortestPath A B allowedModes).totalTime = (n : ℕ∞) ∧
      Reaches g allowedModes A B n ∧
      ∀ m : Nat, Reaches g allowedModes A B m → n ≤ m := by
  have hhA : g.hasNode A = true := List.elem_iff.mpr hA
  have hhB : g.hasNode B = true := List.elem_iff.mpr hB
  unfold Graph.localShortestPath
  rw [if_neg (not_not_intro ⟨hhA, hhB⟩)]
  by_cases hAB : A = B
  · rw [if_pos hAB]
    subst hAB
    refine ⟨rfl, 0, by simp, Reaches.refl A, fun m _ => Nat.zero_le m⟩
  · rw [if_neg hAB]
    have inv0 : DijkstraInv g allowedModes A
        { dist := fun v => if v = A then 0 else ⊤
          cost := fun _ => 0
          prev := fun _ => none
          edgeTo := fun _ => none
          unvisited := g.nodeIds } :=
      { sub := fun v hv => hv
        nodup := hWF.1
        distA := by simp
        sound := fun v n hn => by
          replace hn : (if v = A then (0 : ℕ∞) else ⊤) = (n : ℕ∞) := hn
          by_cases hv : v = A
          · rw [if_pos hv] at hn
            have hn0 : n = 0 := by exact_mod_cast hn.symm
            subst hn0
            rw [hv]
            exact Reaches.refl A
          · rw [if_neg hv] at hn
            exact absurd hn.symm (ENat.coe_ne_top n)
        visFin := fun v hvN hv => absurd hvN hv
        ordered := fun u huN hu => absurd huN hu
        relaxed := fun u hu e he => absurd (mem_nodeIds_of_neighbors g u e he) hu }
    have spec := dijkstraLoop_spec g allowedModes A B hWF g.nodeIds.length _ inv0
      (le_refl _)
    dsimp only
    cases hd : (dijkstraLoop g allowedModes B g.nodeIds.length
        { dist := fun v => if v = A then 0 else ⊤
          cost := fun _ => 0
          prev := fun _ => none
          edgeTo := fun _ => none
          unvisited := g.nodeIds }).dist B with
    | top => exact absurd hreach (spec.2 hd t0)
    | coe n =>
      obtain ⟨hr, hmins⟩ := spec.1 n hd
      exact ⟨rfl, n, rfl, hr, hmins⟩

theorem checkAndReset_same_day (today : String) (s : ClientState)
    (h : s.lastReset = today) : checkAndResetCounters today s = s := by
  unfold checkAndResetCounters
  rw [if_neg (not_not_intro h)]

theorem checkAndReset_cache (today : String) (s : ClientState) :
    (checkAndResetCounters today s).cache = s.cache := by
  unfold checkAndResetCounters
  split
  · dsimp only
    split
    · rfl
    · rfl
  · rfl

theorem checkAndReset_hits (today : String) (s : ClientState) :
    (checkAndResetCounters today s).cacheHits = s.cacheHits := by
  unfold checkAndResetCounters
  split
  · dsimp only
    split
    · rfl
    · rfl
  · rfl

theorem checkAndReset_misses (today : String) (s : ClientState) :
    (checkAndResetCounters today s).cacheMisses = s.cacheMisses := by
  unfold checkAndResetCounters
  split
  · dsimp only
    split
    · rfl
    · rfl
  · rfl

/-- With no API key configured, `getLocalSegment` fails fast and leaves the
client state untouched — this justifies the pure planner oracle `dmOf`. -/
theorem getLocalSegment_unconfigured (g : Graph) (today : String) (now : Nat)
    (net : NetOutcome) (s : ClientState) (o d : String) (m : Submode) :
    getLocalSegment g ("") today now net s o d m = (notConfiguredResult, s, false) := by
  rfl

/-- Claim C4 (amended): a configured same-day call that is not served from a
fresh cache entry fails with the monthly quota error when the monthly limit
is reached, and otherwise with the daily quota error when the daily limit is
reached — the monthly check precedes the daily check — and in both cases the
state is untouched and no network call is issued. -/
theorem getLocalSegment_daily_quota (g : Graph) (apiKey today : String)
    (now : Nat) (net : NetOutcome) (s : ClientState) (o d : String)
    (m : Submode) (hKey : apiKey ≠ ("")) (hDay : s.lastReset = today)
    (hCache : (mapGet s.cache (cacheKey o d m)).all
      (fun e => ! isCacheValid now e) = true) :
    (s.monthlyCount ≥ MONTHLY_LIMIT →
      getLocalSegment g apiKey today now net s o d m
        = (⟨false, none, none, some ("Monthly API quota exceeded"), none⟩, s, false)) ∧
    (s.monthlyCount < MONTHLY_LIMIT → s.dailyCount ≥ DAILY_LIMIT →
      getLocalSegment g apiKey today now net s o d m
        = (⟨false, none, none, some ("Daily API quota exceeded"), none⟩, s, false)) := by
  have hpast : ∀ hm : s.monthlyCount ≥ MONTHLY_LIMIT,
      getLocalSegmentPastCache g now net s (cacheKey o d m) o d
        = (⟨false, none, none, some ("Monthly API quota exceeded"), none⟩, s, false) := by
    intro hm
    unfold getLocalSegmentPastCache
    rw [if_pos hm]
  have hpast2 : ∀ _ : s.monthlyCount < MONTHLY_LIMIT, ∀ _ : s.dailyCount ≥ DAILY_LIMIT,
      getLocalSegmentPastCache g now net s (cacheKey o d m) o d
        = (⟨false, none, none, some ("Daily API quota exceeded"), none⟩, s, false) := by
    intro hm hd
    unfold getLocalSegmentPastCache
    rw [if_neg (not_le.mpr hm), if_pos hd]
  have hmain : getLocalSegment g apiKey today now net s o d m
      = getLocalSegmentPastCache g now net s (cacheKey o d m) o d := by
    unfold getLocalSegment
    rw [if_neg hKey, checkAndReset_same_day today s hDay]
    dsimp only
    cases hc : mapGet s.cache (cacheKey o d m) with
    | none => rfl
    | some e =>
      rw [hc] at hCache
      simp only [Option.all_some, Bool.not_eq_true'] at hCache
      dsimp only
      rw [hCache]
      simp
  exact ⟨fun hm => by rw [hmain, hpast hm],
    fun hm hd => by rw [hmain, hpast2 hm hd]⟩

/-- Claim C4 counterexample: a configured call on a day whose daily quota is
exhausted still succeeds when a fresh cache entry exists — it does not
return the daily quota error. -/
theorem getLocalSegment_daily_quota_counterexample :
    sC4.dailyCount = DAILY_LIMIT ∧ sC4.lastReset = ("2026-01-01") ∧
    (getLocalSegment gSeg ("k") ("2026-01-01") 2000 (NetOutcome.exn ("none"))
        sC4 ("A") ("B") Submode.driving).1.ok = true ∧
    (getLocalSegment gSeg ("k") ("2026-01-01") 2000 (NetOutcome.exn ("none"))
        sC4 ("A") ("B") Submode.driving).1.errorMessage = none := by
  decide

theorem getLocalSegmentPastCache_no_hit (g : Graph) (now : Nat)
    (net : NetOutcome) (s : ClientState) (key o d : String) :
    (getLocalSegmentPastCache g now net s key o d).1.fromCache ≠ some true ∧
    (getLocalSegmentPastCache g now net s key o d).2.1.cacheHits = s.cacheHits := by
  unfold getLocalSegmentPastCache
  split
  · exact ⟨by simp, rfl⟩
  · split
    · exact ⟨by simp, rfl⟩
    · split
      · cases net with
        | exn msg => exact ⟨by simp, rfl⟩
        | resp data =>
          dsimp only
          split
          · exact ⟨by simp, rfl⟩
          · split
            · exact ⟨by simp, rfl⟩
            · exact ⟨by simp, rfl⟩
            · split
              · exact ⟨by simp, rfl⟩
              · exact ⟨by simp, rfl⟩
      · exact ⟨by simp, rfl⟩

theorem getLocalSegmentPastCache_total (g : Graph) (now : Nat)
    (net : NetOutcome) (s : ClientState) (key o d : String) :
    (getLocalSegmentPastCache g now net s key o d).1.ok = true ∨
      ((getLocalSegmentPastCache g now net s key o d).1.ok = false ∧
        ((getLocalSegmentPastCache g now net s key o d).1.errorMessage).isSome = true) := by
  unfold getLocalSegmentPastCache
  split
  · exact Or.inr ⟨rfl, rfl⟩
  · split
    · exact Or.inr ⟨rfl, rfl⟩
    · split
      · cases net with
        | exn msg => exact Or.inr ⟨rfl, rfl⟩
        | resp data =>
          dsimp only
          split
          · exact Or.inr ⟨rfl, rfl⟩
          · split
            · exact Or.inr ⟨rfl, rfl⟩
            · exact Or.inr ⟨rfl, rfl⟩
            · split
              · exact Or.inr ⟨rfl, rfl⟩
              · exact Or.inl rfl
      · exact Or.inr ⟨rfl, rfl⟩

/-- The cache-branch reduction of `getLocalSegment` on a stale-or-absent
entry. -/
theorem getLocalSegment_pastCache_eq (g : Graph) (apiKey today : String)
    (now : Nat) (net : NetOutcome) (s : ClientState) (o d : String)
    (m : Submode) (hKey : apiKey ≠ (""))
    (hCache : (mapGet s.cache (cacheKey o d m)).all
      (fun e => ! isCacheValid now e) = true) :
    getLocalSegment g apiKey today now net s o d m
      = getLocalSegmentPastCache g now net (checkAndResetCounters today s)
          (cacheKey o d m) o d := by
  have hCacheR : (mapGet (checkAndResetCounters today s).cache (cacheKey o d m)).all
      (fun e => ! isCacheValid now e) = true := by
    rw [checkAndReset_cache]
    exact hCache
  unfold getLocalSegment
  rw [if_neg hKey]
  dsimp only
  cases hc : mapGet (checkAndResetCounters today s).cache (cacheKey o d m) with
  | none => rfl
  | some e =>
    rw [hc] at hCacheR
    simp only [Option.all_some, Bool.not_eq_true'] at hCacheR
    dsimp only
    rw [hCacheR]
    simp

/-- Claim C10: `getLocalSegment` is total and never raises — for every world,
every state and every outcome of the external call (a rejected promise, a
malformed body with `rows`/`elements` absent, or any status), it returns a
`DistanceMatrixResult`, and every failure is reported as `ok = false`
together with an error message. -/
theorem getLocalSegment_total (g : Graph) (apiKey today : String)
    (now : Nat) (net : NetOutcome) (s : ClientState) (o d : String)
    (m : Submode) :
    (getLocalSegment g apiKey today now net s o d m).1.ok = true ∨
      ((getLocalSegment g apiKey today now net s o d m).1.ok = false ∧
        ((getLocalSegment g apiKey today now net s o d m).1.errorMessage).isSome
          = true) := by
  unfold getLocalSegment
  split
  · exact Or.inr ⟨rfl, rfl⟩
  · dsimp only
    split
    · split
      · exact Or.inl rfl
      · exact getLocalSegmentPastCache_total g now net _ _ o d
    · exact getLocalSegmentPastCache_total g now net _ _ o d

/-- Claim C6 (amended): a configured call with a cache entry for the key that is
younger than 7 days returns that entry's distance and duration marked
`fromCache = true`, increments `cacheHits`, and — apart from the lazy
date-rollover reset run at the top of every call — leaves `dailyCount` and
`monthlyCount` unchanged (on a same-day call they are exactly unchanged);
an entry aged 7 days or more is never served as a hit, and never increments
`cacheHits`. -/
theorem getLocalSegment_cache_hit (g : Graph) (apiKey today : String)
    (now : Nat) (net : NetOutcome) (s : ClientState) (o d : String)
    (m : Submode) (e : CacheEntry) (hKey : apiKey ≠ (""))
    (hEntry : mapGet s.cache (cacheKey o d m) = some e) :
    (isCacheValid now e = true →
      getLocalSegment g apiKey today now net s o d m
        = (⟨true, some e.distanceMeters, some e.durationSeconds, none, some true⟩,
          { checkAndResetCounters today s with
            cacheHits := (checkAndResetCounters today s).cacheHits + 1 }, false) ∧
      (getLocalSegment g apiKey today now net s o d m).2.1.cacheHits
        = s.cacheHits + 1 ∧
      (s.lastReset = today →
        (getLocalSegment g apiKey today now net s o d m).2.1.dailyCount
          = s.dailyCount ∧
        (getLocalSegment g apiKey today now net s o d m).2.1.monthlyCount
          = s.monthlyCount)) ∧
    (isCacheValid now e = false →
      (getLocalSegment g apiKey today now net s o d m).1.fromCache ≠ some true ∧
      (getLocalSegment g apiKey today now net s o d m).2.1.cacheHits
        = s.cacheHits) := by
  have hEntryR : mapGet (checkAndResetCounters today s).cache (cacheKey o d m)
      = some e := by
    rw [checkAndReset_cache]
    exact hEntry
  constructor
  · intro hv
    have hmain : getLocalSegment g apiKey today now net s o d m
        = (⟨true, some e.distanceMeters, some e.durationSeconds, none, some true⟩,
          { checkAndResetCounters today s with
            cacheHits := (checkAndResetCounters today s).cacheHits + 1 }, false) := by
      unfold getLocalSegment
      rw [if_neg hKey]
      dsimp only
      rw [hEntryR]
      dsimp only
      rw [hv]
      simp
    refine ⟨hmain, ?_, ?_⟩
    · rw [hmain]
      show (checkAndResetCounters today s).cacheHits + 1 = s.cacheHits + 1
      rw [checkAndReset_hits]
    · intro hDay
      rw [hmain, checkAndReset_same_day today s hDay]
      exact ⟨rfl, rfl⟩
  · intro hstale
    have hmain2 := getLocalSegment_pastCache_eq g apiKey today now net s o d m hKey
      (by rw [hEntry]
          simp only [Option.all_some, Bool.not_eq_true']
          exact hstale)
    rw [hmain2]
    obtain ⟨h1, h2⟩ := getLocalSegmentPastCache_no_hit g now net
      (checkAndResetCounters today s) (cacheKey o d m) o d
    exact ⟨h1, by rw [h2, checkAndReset_hits]⟩

/-- Claim C6 counterexample: on the first call of a new day, a fresh cache hit is
served but `dailyCount` is not left unchanged — the lazy rollover resets it
from 5 to 0. -/
theorem getLocalSegment_cache_hit_counterexample :
    sC6.dailyCount = 5 ∧ isCacheValid 2000 ⟨1200, 300, 1000⟩ = true ∧
    (getLocalSegment gSeg ("k") ("2026-01-02") 2000 (NetOutcome.exn ("none"))
        sC6 ("A") ("B") Submode.driving).1.fromCache = some true ∧
    (getLocalSegment gSeg ("k") ("2026-01-02") 2000 (NetOutcome.exn ("none"))
        sC6 ("A") ("B") Submode.driving).2.1.dailyCount = 0 := by
  decide

/-- Claim C7 (amended): on a configured same-day call that misses the cache,
`cacheMisses` is incremented exactly when the call passes both quota checks
and node resolution and proceeds to the network attempt; calls rejected by
the monthly or daily quota check, or by node resolution, leave `cacheMisses`
unchanged — the increment happens after the quota checks, not before. -/
theorem getLocalSegment_cacheMisses (g : Graph) (apiKey today : String)
    (now : Nat) (net : NetOutcome) (s : ClientState) (o d : String)
    (m : Submode) (hKey : apiKey ≠ ("")) (hDay : s.lastReset = today)
    (hCache : (mapGet s.cache (cacheKey o d m)).all
      (fun e => ! isCacheValid now e) = true) :
    (s.monthlyCount ≥ MONTHLY_LIMIT →
      (getLocalSegment g apiKey today now net s o d m).2.1.cacheMisses
        = s.cacheMisses) ∧
    (s.monthlyCount < MONTHLY_LIMIT → s.dailyCount ≥ DAILY_LIMIT →
      (getLocalSegment g apiKey today now net s o d m).2.1.cacheMisses
        = s.cacheMisses) ∧
    (s.monthlyCount < MONTHLY_LIMIT → s.dailyCount < DAILY_LIMIT →
      ((g.getNode o).isSome = false ∨ (g.getNode d).isSome = false →
        (getLocalSegment g apiKey today now net s o d m).2.1.cacheMisses
          = s.cacheMisses) ∧
      ((g.getNode o).isSome = true → (g.getNode d).isSome = true →
        (getLocalSegment g apiKey today now net s o d m).2.1.cacheMisses
          = s.cacheMisses + 1)) := by
  have hmain := getLocalSegment_pastCache_eq g apiKey today now net s o d m hKey hCache
  rw [checkAndReset_same_day today s hDay] at hmain
  rw [hmain]
  unfold getLocalSegmentPastCache
  refine ⟨fun hm => ?_, fun hm hd2 => ?_, fun hm hd2 => ?_⟩
  · rw [if_pos hm]
  · rw [if_neg (not_le.mpr hm), if_pos hd2]
  · rw [if_neg (not_le.mpr hm), if_neg (not_le.mpr hd2)]
    constructor
    · intro hnode
      cases ho : g.getNode o with
      | none => rfl
      | some nO =>
        cases hd3 : g.getNode d with
        | none => rfl
        | some nD =>
          rw [ho, hd3] at hnode
          simp at hnode
    · intro hO hD
      obtain ⟨nO, ho⟩ := Option.isSome_iff_exists.mp hO
      obtain ⟨nD, hd3⟩ := Option.isSome_iff_exists.mp hD
      rw [ho, hd3]
      cases net with
      | exn msg => rfl
      | resp data =>
        dsimp only
        split
        · rfl
        · split
          · rfl
          · rfl
          · split
            · rfl
            · rfl

/-- Claim C7 counterexample: a configured cache-missing call rejected by the
monthly quota check does not increment `cacheMisses` (the claim says every
non-cache-hit call does, before the quota checks). -/
theorem getLocalSegment_cacheMisses_counterexample :
    sC7.cacheMisses = 0 ∧ sC7.monthlyCount = MONTHLY_LIMIT ∧
    (getLocalSegment gSeg ("k") ("2026-01-01") 2000 (NetOutcome.exn ("none"))
        sC7 ("A") ("B") Submode.driving).1.errorMessage
      = some ("Monthly API quota exceeded") ∧
    (getLocalSegment gSeg ("k") ("2026-01-01") 2000 (NetOutcome.exn ("none"))
        sC7 ("A") ("B") Submode.driving).2.1.cacheMisses = 0 := by
  decide

/-- Claim C8: every call that reaches the provider (the promise resolves with a
body) increments both `dailyCount` and `monthlyCount` — relative to the
lazily rolled-over counters — regardless of the subsequent outcome; and when
the top-level status, or the pair's element status, is unsuccessful, the
call fails with the upstream error carrying the provider's status, the quota
having still been consumed. -/
theorem getLocalSegment_upstream (g : Graph) (apiKey today : String)
    (now : Nat) (data : DMData) (s : ClientState) (o d : String)
    (m : Submode) (hKey : apiKey ≠ (""))
    (hCache : (mapGet s.cache (cacheKey o d m)).all
      (fun e => ! isCacheValid now e) = true)
    (hMon : (checkAndResetCounters today s).monthlyCount < MONTHLY_LIMIT)
    (hDaily : (checkAndResetCounters today s).dailyCount < DAILY_LIMIT)
    (hO : (g.getNode o).isSome = true) (hD : (g.getNode d).isSome = true) :
    (getLocalSegment g apiKey today now (NetOutcome.resp data) s o d m).2.2
      = true ∧
    (getLocalSegment g apiKey today now (NetOutcome.resp data) s o d m).2.1.monthlyCount
      = (checkAndResetCounters today s).monthlyCount + 1 ∧
    (getLocalSegment g apiKey today now (NetOutcome.resp data) s o d m).2.1.dailyCount
      = (checkAndResetCounters today s).dailyCount + 1 ∧
    (data.status ≠ ("OK") →
      (getLocalSegment g apiKey today now (NetOutcome.resp data) s o d m).1.ok
        = false ∧
      (getLocalSegment g apiKey today now (NetOutcome.resp data) s o d m).1.errorMessage
        = some (("API status: ") ++ data.status)) ∧
    (∀ el : DMElement, data.status = ("OK") →
      extractElement data = Except.ok (some el) → el.status ≠ ("OK") →
      (getLocalSegment g apiKey today now (NetOutcome.resp data) s o d m).1.ok
        = false ∧
      (getLocalSegment g apiKey today now (NetOutcome.resp data) s o d m).1.errorMessage
        = some (("Element status: ") ++ el.status)) := by
  have hred := getLocalSegment_pastCache_eq g apiKey today now
    (NetOutcome.resp data) s o d m hKey hCache
  rw [hred]
  obtain ⟨nO, ho⟩ := Option.isSome_iff_exists.mp hO
  obtain ⟨nD, hd3⟩ := Option.isSome_iff_exists.mp hD
  unfold getLocalSegmentPastCache
  rw [if_neg (not_le.mpr hMon), if_neg (not_le.mpr hDaily), ho, hd3]
  dsimp only
  refine ⟨?_, ?_, ?_, ?_, ?_⟩
  · split
    · rfl
    · split
      · rfl
      · rfl
      · split
        · rfl
        · rfl
  · split
    · rfl
    · split
      · rfl
      · rfl
      · split
        · rfl
        · rfl
  · split
    · rfl
    · split
      · rfl
      · rfl
      · split
        · rfl
        · rfl
  · intro hst
    rw [if_pos hst]
    exact ⟨rfl, rfl⟩
  · intro el hstOK hext helst
    rw [if_neg (fun h => h hstOK), hext]
    dsimp only
    rw [if_pos helst]
    exact ⟨rfl, rfl⟩

/-- Claim C8 witness: a provider body with top-level status `OVER_QUERY_LIMIT`
reaches the provider, consumes quota, and yields the upstream error. -/
theorem getLocalSegment_upstream_witness :
    (getLocalSegment gSeg ("k") ("2026-01-01") 2000 (NetOutcome.resp dataC8)
        sC8 ("A") ("B") Submode.driving).2.2 = true ∧
    (getLocalSegment gSeg ("k") ("2026-01-01") 2000 (NetOutcome.resp dataC8)
        sC8 ("A") ("B") Submode.driving).2.1.monthlyCount
      = (checkAndResetCounters ("2026-01-01") sC8).monthlyCount + 1 ∧
    (getLocalSegment gSeg ("k") ("2026-01-01") 2000 (NetOutcome.resp dataC8)
        sC8 ("A") ("B") Submode.driving).2.1.dailyCount
      = (checkAndResetCounters ("2026-01-01") sC8).dailyCount + 1 ∧
    (dataC8.status ≠ ("OK") →
      (getLocalSegment gSeg ("k") ("2026-01-01") 2000 (NetOutcome.resp dataC8)
          sC8 ("A") ("B") Submode.driving).1.ok = false ∧
      (getLocalSegment gSeg ("k") ("2026-01-01") 2000 (NetOutcome.resp dataC8)
          sC8 ("A") ("B") Submode.driving).1.errorMessage
        = some (("API status: ") ++ dataC8.status)) ∧
    (∀ el : DMElement, dataC8.status = ("OK") →
      extractElement dataC8 = Except.ok (some el) → el.status ≠ ("OK") →
      (getLocalSegment gSeg ("k") ("2026-01-01") 2000 (NetOutcome.resp dataC8)
          sC8 ("A") ("B") Submode.driving).1.ok = false ∧
      (getLocalSegment gSeg ("k") ("2026-01-01") 2000 (NetOutcome.resp dataC8)
          sC8 ("A") ("B") Submode.driving).1.errorMessage
        = some (("Element status: ") ++ el.status)) :=
  getLocalSegment_upstream gSeg ("k") ("2026-01-01") 2000 dataC8 sC8
    ("A") ("B") Submode.driving (by decide) (by decide) (by decide) (by decide)
    (by decide) (by decide)

/-- Claim C4 witness: at a concrete state with the daily limit reached, an empty
cache and a same-day call, the theorem instantiates. -/
theorem getLocalSegment_daily_quota_witness :
    (sC4W.monthlyCount ≥ MONTHLY_LIMIT →
      getLocalSegment gSeg ("k") ("2026-01-01") 2000 (NetOutcome.exn ("none"))
          sC4W ("A") ("B") Submode.driving
        = (⟨false, none, none, some ("Monthly API quota exceeded"), none⟩, sC4W, false)) ∧
    (sC4W.monthlyCount < MONTHLY_LIMIT → sC4W.dailyCount ≥ DAILY_LIMIT →
      getLocalSegment gSeg ("k") ("2026-01-01") 2000 (NetOutcome.exn ("none"))
          sC4W ("A") ("B") Submode.driving
        = (⟨false, none, none, some ("Daily API quota exceeded"), none⟩, sC4W, false)) :=
  getLocalSegment_daily_quota gSeg ("k") ("2026-01-01") 2000
    (NetOutcome.exn ("none")) sC4W ("A") ("B") Submode.driving
    (by decide) (by decide) (by decide)

/-- Claim C6 witness: at a concrete state with a fresh cache entry, the theorem
instantiates. -/
theorem getLocalSegment_cache_hit_witness :
    (isCacheValid 2000 ⟨1200, 300, 1000⟩ = true →
      getLocalSegment gSeg ("k") ("2026-01-01") 2000 (NetOutcome.exn ("none"))
          sC4 ("A") ("B") Submode.driving
        = (⟨true, some (⟨1200, 300, 1000⟩ : CacheEntry).distanceMeters,
            some (⟨1200, 300, 1000⟩ : CacheEntry).durationSeconds, none, some true⟩,
          { checkAndResetCounters ("2026-01-01") sC4 with
            cacheHits := (checkAndResetCounters ("2026-01-01") sC4).cacheHits + 1 },
          false) ∧
      (getLocalSegment gSeg ("k") ("2026-01-01") 2000 (NetOutcome.exn ("none"))
          sC4 ("A") ("B") Submode.driving).2.1.cacheHits = sC4.cacheHits + 1 ∧
      (sC4.lastReset = ("2026-01-01") →
        (getLocalSegment gSeg ("k") ("2026-01-01") 2000 (NetOutcome.exn ("none"))
            sC4 ("A") ("B") Submode.driving).2.1.dailyCount = sC4.dailyCount ∧
        (getLocalSegment gSeg ("k") ("2026-01-01") 2000 (NetOutcome.exn ("none"))
            sC4 ("A") ("B") Submode.driving).2.1.monthlyCount = sC4.monthlyCount)) ∧
    (isCacheValid 2000 ⟨1200, 300, 1000⟩ = false →
      (getLocalSegment gSeg ("k") ("2026-01-01") 2000 (NetOutcome.exn ("none"))
          sC4 ("A") ("B") Submode.driving).1.fromCache ≠ some true ∧
      (getLocalSegment gSeg ("k") ("2026-01-01") 2000 (NetOutcome.exn ("none"))
          sC4 ("A") ("B") Submode.driving).2.1.cacheHits = sC4.cacheHits) :=
  getLocalSegment_cache_hit gSeg ("k") ("2026-01-01") 2000
    (NetOutcome.exn ("none")) sC4 ("A") ("B") Submode.driving ⟨1200, 300, 1000⟩
    (by decide) (by decide)

/-- Claim C7 witness: at a concrete idle-quota state, the theorem instantiates. -/
theorem getLocalSegment_cacheMisses_witness :
    (sC8.monthlyCount ≥ MONTHLY_LIMIT →
      (getLocalSegment gSeg ("k") ("2026-01-01") 2000 (NetOutcome.exn ("none"))
          sC8 ("A") ("B") Submode.driving).2.1.cacheMisses = sC8.cacheMisses) ∧
    (sC8.monthlyCount < MONTHLY_LIMIT → sC8.dailyCount ≥ DAILY_LIMIT →
      (getLocalSegment gSeg ("k") ("2026-01-01") 2000 (NetOutcome.exn ("none"))
          sC8 ("A") ("B") Submode.driving).2.1.cacheMisses = sC8.cacheMisses) ∧
    (sC8.monthlyCount < MONTHLY_LIMIT → sC8.dailyCount < DAILY_LIMIT →
      ((gSeg.getNode ("A")).isSome = false ∨ (gSeg.getNode ("B")).isSome = false →
        (getLocalSegment gSeg ("k") ("2026-01-01") 2000 (NetOutcome.exn ("none"))
            sC8 ("A") ("B") Submode.driving).2.1.cacheMisses = sC8.cacheMisses) ∧
      ((gSeg.getNode ("A")).isSome = true → (gSeg.getNode ("B")).isSome = true →
        (getLocalSegment gSeg ("k") ("2026-01-01") 2000 (NetOutcome.exn ("none"))
            sC8 ("A") ("B") Submode.driving).2.1.cacheMisses = sC8.cacheMisses + 1)) :=
  getLocalSegment_cacheMisses gSeg ("k") ("2026-01-01") 2000
    (NetOutcome.exn ("none")) sC8 ("A") ("B") Submode.driving
    (by decide) (by decide) (by decide)

/-- Claim C1 witness: on the graph `A —walk(2)— B —local(3)— C` the theorem
instantiates at the two-edge path of length 5. -/
theorem localShortestPath_correct_witness :
    (gW.localShortestPath ("A") ("C") [Mode.walk, Mode.local_]).found = true ∧
    ∃ n : Nat,
      (gW.localShortestPath ("A") ("C") [Mode.walk, Mode.local_]).totalTime
        = (n : ℕ∞) ∧
      Reaches gW [Mode.walk, Mode.local_] ("A") ("C") n ∧
      ∀ m : Nat, Reaches gW [Mode.walk, Mode.local_] ("A") ("C") m → n ≤ m :=
  localShortestPath_correct gW [Mode.walk, Mode.local_] ("A") ("C")
    (by decide) (by decide) (by decide) 5
    (Reaches.step ⟨("B"), Mode.walk, 2, 0⟩ (by decide) (by decide)
      (Reaches.step ⟨("C"), Mode.local_, 3, 20⟩ (by decide) (by decide)
        (Reaches.refl ("C"))))

theorem findSome?_eq_find_bind (p : Trip → Option RouteOption) (l : List Trip) :
    l.findSome? p = (l.find? (fun x => (p x).isSome)).bind p := by
  induction l with
  | nil => rfl
  | cons hd tl ih =>
    rw [List.findSome?_cons, List.find?_cons]
    cases hp : p hd with
    | some v => simp [hp]
    | none => simp [hp, ih]

theorem directTripOption_isSome (route : Route) (from_ to_ requestTime : String)
    (trip : Trip) :
    (directTripOption route from_ to_ requestTime trip).isSome
      = tripQualifies trip from_ to_ requestTime := by
  unfold directTripOption tripQualifies
  cases trip.stops.findIdx? (fun s => s == from_) with
  | none => rfl
  | some fi =>
    cases trip.stops.findIdx? (fun s => s == to_) with
    | none => rfl
    | some ti =>
      dsimp only
      by_cases h1 : fi ≥ ti
      · rw [if_pos h1, if_pos h1]
        rfl
      · rw [if_neg h1, if_neg h1]
        by_cases h2 : timeToMinutes (parseTime trip.departure_time) + fi * 5
            < timeToMinutes (parseTime requestTime)
        · rw [if_pos h2]
          simp [Nat.not_le.mpr h2]
        · rw [if_neg h2]
          simp [Nat.not_lt.mp h2]

/-- Claim C3 (amended): per route, the Direct strategy produces at most one
candidate — the one built from the first trip in the route's trip order that
qualifies (serves both stops in order with estimated boarding no earlier
than the requested time) — and none when no trip qualifies. -/
theorem directBusRoute_first_qualifying (route : Route)
    (from_ to_ requestTime : String) :
    directBusRoute route from_ to_ requestTime
      = (route.trips.find?
          (fun tr => tripQualifies tr from_ to_ requestTime)).bind
          (directTripOption route from_ to_ requestTime) := by
  unfold directBusRoute
  rw [findSome?_eq_find_bind]
  have hfun : (fun x => (directTripOption route from_ to_ requestTime x).isSome)
      = (fun tr => tripQualifies tr from_ to_ requestTime) := by
    funext tr
    exact directTripOption_isSome route from_ to_ requestTime tr
  rw [hfun]

/-- Claim C3 counterexample: a route with two qualifying trips yields a single
candidate (for the first trip), not one candidate per qualifying trip. -/
theorem directBusRoute_not_per_trip :
    (routeC3.trips.countP
      (fun tr => tripQualifies tr ("A") ("B") ("08:00"))) = 2 ∧
    (directBusRoute routeC3 ("A") ("B") ("08:00")).toList.length = 1 ∧
    ((directBusRoute routeC3 ("A") ("B") ("08:00")).toList.map
      (fun o => o.legs.map RouteLeg.trip_id)) = [[some ("t1")]] := by
  decide

/-- Claim C5: on a graph with nodes `{A, B, C}` and one bus route with a single
trip `[A, B, C]` departing 08:00, `planRoute(A, C, "07:55")` yields exactly
one option: a direct one with departure 08:00, arrival 08:10 and total time
15 (5 wait + 10 ride). -/
theorem planRoute_scenario_direct :
    (planRoute gC5 dmC5 ("A") ("C") ("07:55")).options.length = 1 ∧
    ((planRoute gC5 dmC5 ("A") ("C") ("07:55")).options.headI).type
      = OptionType.direct ∧
    ((planRoute gC5 dmC5 ("A") ("C") ("07:55")).options.headI).totalTimeMin = 15 ∧
    (((planRoute gC5 dmC5 ("A") ("C") ("07:55")).options.headI).legs.map
      RouteLeg.departure) = [some ("08:00")] ∧
    (((planRoute gC5 dmC5 ("A") ("C") ("07:55")).options.headI).legs.map
      RouteLeg.arrival) = [some ("08:10")] := by
  decide

/-- Claim C9: when either endpoint is not a loaded node, or the origin equals the
destination, `planRoute` returns a `RouteResponse` with an empty options
list rather than raising. -/
theorem planRoute_empty_on_invalid (g : Graph) (dm : DMOracle)
    (from_ to_ requestTime : String)
    (h : g.hasNode from_ = false ∨ g.hasNode to_ = false ∨ from_ = to_) :
    planRoute g dm from_ to_ requestTime = ⟨from_, to_, requestTime, []⟩ := by
  unfold planRoute
  by_cases h1 : (g.hasNode from_ && g.hasNode to_) = false
  · rw [if_pos h1]
  · rw [if_neg h1]
    have heq : from_ = to_ := by
      rcases h with h | h | h
      · exact absurd (by rw [h, Bool.false_and]) h1
      · exact absurd (by rw [h, Bool.and_false]) h1
      · exact h
    rw [if_pos (by exact beq_iff_eq.mpr heq)]

/-- Claim C9 witness: `planRoute(A, A, "08:00")` returns an empty options list. -/
theorem planRoute_empty_on_invalid_witness :
    planRoute gC5 dmC5 ("A") ("A") ("08:00")
      = ⟨("A"), ("A"), ("08:00"), []⟩ :=
  planRoute_empty_on_invalid gC5 dmC5 ("A") ("A") ("08:00")
    (Or.inr (Or.inr rfl))

/-- Claim C2: at the failing input — a direct bus `A→B` in 5 minutes and a local
edge `A—B` in 3 minutes — `planRoute` returns three options whose second and
third share the leg-identity `A-B-bus`: the least-local option's identity is
never recorded in `addedIds`, so the fill loop re-appends it. -/
theorem planRoute_duplicate_leg_identity :
    ((planRoute gC2 dmC2 ("A") ("B") ("08:00")).options.map getOptionId)
      = [("A-B-local"), ("A-B-bus"), ("A-B-bus")] := by
  decide

end MND
